import Mathlib

/-!  Shallow embedding of the x86 CPU driver (`cpu_x86.c`): the CPUID data
algebra, the model catalog, the model comparator, the compute pipeline, the
decoder, the catalog loaders, `x86HasFeature` and `x86UpdateCustom`, together
with theorems about them.  Machine registers are modelled as `Nat` with the
bitwise operations (only masking operations occur, so no wrap-around is ever
introduced); fallible C paths become `Option`/`Except`; the heap objects
become values. -/

/-- One CPUID leaf: the input function number and the four output registers
(`struct cpuX86cpuid`). -/
structure CPUX86cpuid where
  function : Nat
  eax : Nat
  ebx : Nat
  ecx : Nat
  edx : Nat
deriving DecidableEq

/-- The all-zero leaf (`cpuidNull`). -/
def cpuidNull : CPUX86cpuid := ⟨0, 0, 0, 0, 0⟩

/-- First extended CPUID function (`CPUX86_EXTENDED`). -/
def CPUX86_EXTENDED : Nat := 0x80000000

/-- `x86cpuidMatch`: the four registers coincide (the function field is not
compared). -/
def x86cpuidMatch (c1 c2 : CPUX86cpuid) : Bool :=
  c1.eax == c2.eax && c1.ebx == c2.ebx && c1.ecx == c2.ecx && c1.edx == c2.edx

/-- `x86cpuidMatchMasked`: every bit of `mask` is set in `c`. -/
def x86cpuidMatchMasked (c mask : CPUX86cpuid) : Bool :=
  (c.eax &&& mask.eax) == mask.eax && (c.ebx &&& mask.ebx) == mask.ebx &&
  (c.ecx &&& mask.ecx) == mask.ecx && (c.edx &&& mask.edx) == mask.edx

/-- `x86cpuidSetBits`: or the mask into the registers. -/
def x86cpuidSetBits (c mask : CPUX86cpuid) : CPUX86cpuid :=
  { c with eax := c.eax ||| mask.eax, ebx := c.ebx ||| mask.ebx,
           ecx := c.ecx ||| mask.ecx, edx := c.edx ||| mask.edx }

/-- `x86cpuidClearBits`: clear the mask's bits from the registers
(`reg &= ~mask` — written as `reg &&& (reg ^^^ mask)`, which coincides with
and-not on the bits of `reg`). -/
def x86cpuidClearBits (c mask : CPUX86cpuid) : CPUX86cpuid :=
  { c with eax := c.eax &&& (c.eax ^^^ mask.eax), ebx := c.ebx &&& (c.ebx ^^^ mask.ebx),
           ecx := c.ecx &&& (c.ecx ^^^ mask.ecx), edx := c.edx &&& (c.edx ^^^ mask.edx) }

/-- `x86cpuidAndBits`: and the mask into the registers. -/
def x86cpuidAndBits (c mask : CPUX86cpuid) : CPUX86cpuid :=
  { c with eax := c.eax &&& mask.eax, ebx := c.ebx &&& mask.ebx,
           ecx := c.ecx &&& mask.ecx, edx := c.edx &&& mask.edx }

/-- A leaf is null when all four registers are zero (the function field is
irrelevant, exactly as in `x86cpuidMatch(ret, &cpuidNull)`). -/
def x86cpuidIsNull (c : CPUX86cpuid) : Bool := x86cpuidMatch c cpuidNull

/-- `struct cpuX86Data`: dense basic leaves indexed by function and dense
extended leaves indexed by `function - CPUX86_EXTENDED`. -/
structure CPUX86Data where
  basic : List CPUX86cpuid
  extended : List CPUX86cpuid
deriving DecidableEq

/-- The sequence produced by `x86DataCpuidNext`: all basic leaves then all
extended leaves, null leaves skipped. -/
def x86DataLeaves (d : CPUX86Data) : List CPUX86cpuid :=
  (d.basic ++ d.extended).filter (fun c => !x86cpuidIsNull c)

/-- `x86DataCpuid`: the leaf stored for a function, `none` when the function is
past the end or its leaf is null. -/
def x86DataCpuid (d : CPUX86Data) (f : Nat) : Option CPUX86cpuid :=
  if f < CPUX86_EXTENDED then
    match d.basic.get? f with
    | some c => if x86cpuidIsNull c then none else some c
    | none => none
  else
    match d.extended.get? (f - CPUX86_EXTENDED) with
    | some c => if x86cpuidIsNull c then none else some c
    | none => none

/-- `x86DataCopy`: a deep copy; on values this is the identity. -/
def x86DataCopy (d : CPUX86Data) : CPUX86Data := d

/-- `x86DataExpand`: append `basic_by`/`extended_by` null leaves whose function
fields are set to match their indices.  The C callers pass differences that can
be negative, in which case nothing grows; truncated `Nat` subtraction at the
call sites models that. -/
def x86DataExpand (d : CPUX86Data) (basic_by extended_by : Nat) : CPUX86Data :=
  { basic := d.basic ++
      (List.range basic_by).map (fun i => { cpuidNull with function := d.basic.length + i }),
    extended := d.extended ++
      ((List.range extended_by).map
        (fun i => { cpuidNull with function := CPUX86_EXTENDED + (d.extended.length + i) })) }

/-- Apply `g` to the element stored at index `i` (in-place update of one array
cell). -/
def listModify (l : List CPUX86cpuid) (i : Nat) (g : CPUX86cpuid → CPUX86cpuid) :
    List CPUX86cpuid :=
  match l.get? i with
  | some a => l.set i (g a)
  | none => l

/-- `x86DataAddCpuid`: grow the container to cover the leaf's function, then or
the leaf's bits into the corresponding position. -/
def x86DataAddCpuid (d : CPUX86Data) (c : CPUX86cpuid) : CPUX86Data :=
  if c.function < CPUX86_EXTENDED then
    let d1 := x86DataExpand d (c.function + 1 - d.basic.length) 0
    { d1 with basic := listModify d1.basic c.function (fun a => x86cpuidSetBits a c) }
  else
    let d1 := x86DataExpand d 0 (c.function - CPUX86_EXTENDED + 1 - d.extended.length)
    { d1 with extended := (listModify d1.extended (c.function - CPUX86_EXTENDED)
          (fun a => x86cpuidSetBits a c)) }

/-- Combine the common prefix of two leaf arrays with `g`, keeping the tail of
the first array (the loops in `x86DataAdd`/`x86DataSubtract` run over the
second array's length after the first has been grown, resp. over the minimum of
both lengths). -/
def zipWithTail (g : CPUX86cpuid → CPUX86cpuid → CPUX86cpuid) :
    List CPUX86cpuid → List CPUX86cpuid → List CPUX86cpuid
  | l1, [] => l1
  | [], _ => []
  | a :: l1, b :: l2 => g a b :: zipWithTail g l1 l2

/-- `x86DataAdd`: grow `d1` to cover `d2`, then or register-wise. -/
def x86DataAdd (d1 d2 : CPUX86Data) : CPUX86Data :=
  let d := x86DataExpand d1 (d2.basic.length - d1.basic.length)
      (d2.extended.length - d1.extended.length)
  { basic := zipWithTail x86cpuidSetBits d.basic d2.basic,
    extended := zipWithTail x86cpuidSetBits d.extended d2.extended }

/-- `x86DataSubtract`: clear `d2`'s bits from `d1` on the common prefix of each
array (bounded by the shorter of the two lengths). -/
def x86DataSubtract (d1 d2 : CPUX86Data) : CPUX86Data :=
  { basic := zipWithTail x86cpuidClearBits d1.basic d2.basic,
    extended := zipWithTail x86cpuidClearBits d1.extended d2.extended }

/-- One step of `x86DataIntersect`: a non-null leaf is anded with the leaf of
the same function in `d2` or zeroed when `d2` has no such leaf; null leaves are
skipped by the iterator and stay as they are. -/
def x86DataIntersectLeaf (d2 : CPUX86Data) (c : CPUX86cpuid) : CPUX86cpuid :=
  if x86cpuidIsNull c then c
  else
    match x86DataCpuid d2 c.function with
    | some c2 => x86cpuidAndBits c c2
    | none => x86cpuidClearBits c c

/-- `x86DataIntersect`: intersect `d1` with `d2` in place. -/
def x86DataIntersect (d1 d2 : CPUX86Data) : CPUX86Data :=
  { basic := d1.basic.map (x86DataIntersectLeaf d2),
    extended := d1.extended.map (x86DataIntersectLeaf d2) }

/-- `x86DataIsEmpty`: the iterator yields no non-null leaf. -/
def x86DataIsEmpty (d : CPUX86Data) : Bool :=
  (d.basic ++ d.extended).all x86cpuidIsNull

/-- `x86DataIsSubset`: every non-null leaf of `sub` is mask-contained in the
leaf `data` stores for the same function. -/
def x86DataIsSubset (data sub : CPUX86Data) : Bool :=
  (x86DataLeaves sub).all (fun c =>
    match x86DataCpuid data c.function with
    | some cc => x86cpuidMatchMasked cc c
    | none => false)

/-- Clear `mask`'s bits from the leaf stored at `mask`'s function (the in-place
`x86cpuidClearBits(cpuid, &vendor->cpuid)` of `x86DataToVendor`). -/
def x86DataClearBitsAt (d : CPUX86Data) (mask : CPUX86cpuid) : CPUX86Data :=
  if mask.function < CPUX86_EXTENDED then
    { d with basic := listModify d.basic mask.function (fun a => x86cpuidClearBits a mask) }
  else
    { d with extended := (listModify d.extended (mask.function - CPUX86_EXTENDED)
          (fun a => x86cpuidClearBits a mask)) }

/-- Leaf array whose function fields count up from `n`: the structural
invariant of the dense containers. -/
def leavesIndexed : Nat → List CPUX86cpuid → Bool
  | _, [] => true
  | n, c :: rest => c.function == n && leavesIndexed (n + 1) rest

/-- Structural invariant of `CPUX86Data`: `basic[i].function == i` and
`extended[i].function == CPUX86_EXTENDED + i`. -/
def x86DataWF (d : CPUX86Data) : Bool :=
  leavesIndexed 0 d.basic && leavesIndexed CPUX86_EXTENDED d.extended

/-- The register tuple a container semantically stores for a function: the
stored leaf if present and non-null, otherwise the null tuple. -/
def x86DataBitsAt (d : CPUX86Data) (f : Nat) : CPUX86cpuid :=
  (x86DataCpuid d f).getD { cpuidNull with function := f }

/-- Bit-level containment of the whole container `dA` in `dB` (every bit set in
`dA` is set in `dB`); positions past `dA`'s lengths hold no bits. -/
def x86DataSubsetBits (dA dB : CPUX86Data) : Bool :=
  ((List.range dA.basic.length).all fun i =>
    x86cpuidMatchMasked (x86DataBitsAt dB i) (x86DataBitsAt dA i)) &&
  ((List.range dA.extended.length).all fun i =>
    x86cpuidMatchMasked (x86DataBitsAt dB (CPUX86_EXTENDED + i))
      (x86DataBitsAt dA (CPUX86_EXTENDED + i)))

/-- `struct x86_vendor` (without the intrusive list pointer). -/
structure X86Vendor where
  name : String
  cpuid : CPUX86cpuid
deriving DecidableEq

/-- `struct x86_feature`. -/
structure X86Feature where
  name : String
  data : CPUX86Data
deriving DecidableEq

/-- `struct x86_model`.  `x86ModelNew` leaves the name NULL; the empty string
plays that role here (nothing ever compares such a name). -/
structure X86Model where
  name : String
  vendor : Option X86Vendor
  data : CPUX86Data
deriving DecidableEq

/-- `struct x86_map`: the three head-inserted catalogs, listed in iteration
order (most recently loaded first). -/
structure X86Map where
  vendors : List X86Vendor
  features : List X86Feature
  models : List X86Model
deriving DecidableEq

def x86VendorFind (map : X86Map) (name : String) : Option X86Vendor :=
  map.vendors.find? (fun v => v.name == name)

def x86FeatureFind (map : X86Map) (name : String) : Option X86Feature :=
  map.features.find? (fun f => f.name == name)

def x86ModelFind (map : X86Map) (name : String) : Option X86Model :=
  map.models.find? (fun m => m.name == name)

/-- `x86ModelNew`. -/
def x86ModelNew : X86Model := { name := "", vendor := none, data := ⟨[], []⟩ }

/-- `x86ModelCopy`: a deep copy; the identity on values. -/
def x86ModelCopy (m : X86Model) : X86Model := m

/-- `x86FeatureNames`: the names of the catalog features mask-contained in
`data`, in catalog iteration order (modelled as the list that the
comma-separated message is built from). -/
def x86FeatureNames (map : X86Map) (data : CPUX86Data) : List String :=
  (map.features.filter (fun f => x86DataIsSubset data f.data)).map (fun f => f.name)

/-- `enum compare_result`. -/
inductive CompareResult where
  | SUBSET
  | EQUAL
  | SUPERSET
  | UNRELATED
deriving DecidableEq

/-- Per-leaf verdict of the first loop of `x86ModelCompare` (iterating
`model1`): `none` means the leaves are equal and the loop continues. -/
def x86ModelCompareSignal1 (d2 : CPUX86Data) (c1 : CPUX86cpuid) : Option CompareResult :=
  match x86DataCpuid d2 c1.function with
  | some c2 =>
    if x86cpuidMatch c1 c2 then none
    else if !x86cpuidMatchMasked c1 c2 then some .SUBSET else some .SUPERSET
  | none => some .SUPERSET

/-- Per-leaf verdict of the second loop of `x86ModelCompare` (iterating
`model2`). -/
def x86ModelCompareSignal2 (d1 : CPUX86Data) (c2 : CPUX86cpuid) : Option CompareResult :=
  match x86DataCpuid d1 c2.function with
  | some c1 =>
    if x86cpuidMatch c2 c1 then none
    else if !x86cpuidMatchMasked c2 c1 then some .SUPERSET else some .SUBSET
  | none => some .SUBSET

/-- Folding the per-leaf verdicts: adopt the first verdict, keep a repeated
verdict, and return UNRELATED at the first disagreement (the early `return`). -/
def x86ModelCompareFold : CompareResult → List CompareResult → CompareResult
  | r, [] => r
  | r, s :: rest =>
    if r = .EQUAL then x86ModelCompareFold s rest
    else if s = r then x86ModelCompareFold r rest
    else .UNRELATED

/-- `x86ModelCompare`. -/
def x86ModelCompare (m1 m2 : X86Model) : CompareResult :=
  x86ModelCompareFold .EQUAL
    ((x86DataLeaves m1.data).filterMap (x86ModelCompareSignal1 m2.data) ++
     (x86DataLeaves m2.data).filterMap (x86ModelCompareSignal2 m1.data))

/-- `virArch`, restricted to the values the driver distinguishes. -/
inductive VirArch where
  | NONE
  | I686
  | X86_64
  | OTHER
deriving DecidableEq

inductive VirCPUType where
  | HOST
  | GUEST
deriving DecidableEq

inductive VirCPUMode where
  | CUSTOM
  | HOST_MODEL
  | HOST_PASSTHROUGH
deriving DecidableEq

inductive VirCPUMatch where
  | MINIMUM
  | EXACT
  | STRICT
deriving DecidableEq

inductive VirCPUFallback where
  | ALLOW
  | FORBID
deriving DecidableEq

/-- `virCPUFeaturePolicy`; `UNSET` models the `-1` sentinel the decoder writes
for host CPUs. -/
inductive VirCPUFeaturePolicy where
  | FORCE
  | REQUIRE
  | OPTIONAL
  | DISABLE
  | FORBID
  | UNSET
deriving DecidableEq

structure VirCPUFeature where
  name : String
  policy : VirCPUFeaturePolicy
deriving DecidableEq

/-- The slice of `virCPUDef` the driver reads and writes. -/
structure VirCPUDef where
  arch : VirArch
  type : VirCPUType
  mode : VirCPUMode
  matchMode : VirCPUMatch
  fallback : VirCPUFallback
  model : String
  vendor : Option String
  features : List VirCPUFeature
deriving DecidableEq

/-- Feature-summing loop of `x86ModelFromCPU`: for guests only features of the
requested policy are taken; unknown names fail. -/
def x86ModelAddFeatures (map : X86Map) (cpuType : VirCPUType)
    (policy : VirCPUFeaturePolicy) :
    List VirCPUFeature → CPUX86Data → Option CPUX86Data
  | [], d => some d
  | f :: rest, d =>
    if cpuType = .GUEST ∧ f.policy ≠ policy then
      x86ModelAddFeatures map cpuType policy rest d
    else
      match x86FeatureFind map f.name with
      | none => none
      | some feat => x86ModelAddFeatures map cpuType policy rest (x86DataAdd d feat.data)

/-- `x86ModelFromCPU`: under REQUIRE start from a copy of the named catalog
model (unknown name fails); otherwise start from an empty model, returning it
immediately for host CPUs; then union in the matching features. -/
def x86ModelFromCPU (cpu : VirCPUDef) (map : X86Map)
    (policy : VirCPUFeaturePolicy) : Option X86Model :=
  if policy = .REQUIRE then
    match x86ModelFind map cpu.model with
    | none => none
    | some m =>
      match x86ModelAddFeatures map cpu.type policy cpu.features (x86ModelCopy m).data with
      | none => none
      | some d => some { m with data := d }
  else if cpu.type = .HOST then some x86ModelNew
  else
    match x86ModelAddFeatures map cpu.type policy cpu.features x86ModelNew.data with
    | none => none
    | some d => some { x86ModelNew with data := d }

/-- `virCPUCompareResult`. -/
inductive VirCPUCompareResult where
  | ERROR
  | INCOMPATIBLE
  | IDENTICAL
  | SUPERSET
deriving DecidableEq

/-- What one `x86Compute` call produces: the compare result, the guest data
when requested and produced, and the feature-name list an INCOMPATIBLE result
reports through `virX86CpuIncompatible` (arch/vendor mismatches report plain
strings, modelled as `none`). -/
structure ComputeOutcome where
  result : VirCPUCompareResult
  guestData : Option CPUX86Data
  reported : Option (List String)
deriving DecidableEq

/-- The architecture screening at the top of `x86Compute`: a set arch must be
one of the driver's two architectures. -/
def archCheckFails (cpu : VirCPUDef) : Bool :=
  match cpu.arch with
  | .NONE => false
  | .I686 => false
  | .X86_64 => false
  | .OTHER => true

/-- The vendor screening of `x86Compute`: the cpu requires a vendor the host
does not declare. -/
def vendorMismatch (host cpu : VirCPUDef) : Bool :=
  match cpu.vendor, host.vendor with
  | some v, some w => v != w
  | some _, none => true
  | none, _ => false

/-- The six models `x86Compute` builds after its screening checks. -/
def x86ComputeModels (map : X86Map) (host cpu : VirCPUDef) :
    Option (X86Model × X86Model × X86Model × X86Model × X86Model × X86Model) := do
  let hostModel ← x86ModelFromCPU host map .REQUIRE
  let cpuForce ← x86ModelFromCPU cpu map .FORCE
  let cpuRequire ← x86ModelFromCPU cpu map .REQUIRE
  let cpuOptional ← x86ModelFromCPU cpu map .OPTIONAL
  let cpuDisable ← x86ModelFromCPU cpu map .DISABLE
  let cpuForbid ← x86ModelFromCPU cpu map .FORBID
  return (hostModel, cpuForce, cpuRequire, cpuOptional, cpuDisable, cpuForbid)

/-- Result classification and guest emission of `x86Compute`, on the diff
between the host model and the cpu's four policy sets. -/
def x86ComputeClassify (map : X86Map) (cpu : VirCPUDef) (wantGuest : Bool)
    (hm cf cd : X86Model) (diff : CPUX86Data) : ComputeOutcome :=
  if x86DataIsEmpty diff = false ∧ cpu.type = .GUEST ∧ cpu.matchMode = .STRICT then
    ⟨.INCOMPATIBLE, none, some (x86FeatureNames map diff)⟩
  else
    let ret : VirCPUCompareResult :=
      if x86DataIsEmpty diff then .IDENTICAL else .SUPERSET
    if wantGuest then
      ⟨ret,
       some (x86DataSubtract (x86DataAdd
         (if cpu.type = .GUEST ∧ cpu.matchMode = .EXACT then
            x86DataSubtract hm.data diff
          else hm.data) cf.data) cd.data),
       none⟩
    else ⟨ret, none, none⟩

/-- Body of `x86Compute` after the screening checks and model construction:
forbid check, require normalization and check, result classification, guest
data emission. -/
def x86ComputeInner (map : X86Map) (cpu : VirCPUDef) (wantGuest : Bool)
    (hm cf cr co cd cfb : X86Model) : ComputeOutcome :=
  if x86DataIsEmpty (x86DataIntersect cfb.data hm.data) = false then
    ⟨.INCOMPATIBLE, none, some (x86FeatureNames map (x86DataIntersect cfb.data hm.data))⟩
  else
    if x86ModelCompare hm
        { cr with data := x86DataSubtract (x86DataSubtract
            (x86DataSubtract cr.data cf.data) co.data) cd.data } = .SUBSET ∨
       x86ModelCompare hm
        { cr with data := x86DataSubtract (x86DataSubtract
            (x86DataSubtract cr.data cf.data) co.data) cd.data } = .UNRELATED then
      ⟨.INCOMPATIBLE, none,
        some (x86FeatureNames map (x86DataSubtract (x86DataSubtract (x86DataSubtract
          (x86DataSubtract cr.data cf.data) co.data) cd.data) hm.data))⟩
    else
      x86ComputeClassify map cpu wantGuest hm cf cd
        (x86DataSubtract (x86DataSubtract (x86DataSubtract (x86DataSubtract hm.data
          co.data) (x86DataSubtract (x86DataSubtract
            (x86DataSubtract cr.data cf.data) co.data) cd.data)) cd.data) cf.data)

/-- `x86Compute`: the screening checks, then the model pipeline.  `map` stands
for the loaded catalog, `wantGuest` for a non-NULL `guest` out-parameter. -/
def x86Compute (map : X86Map) (host cpu : VirCPUDef) (wantGuest : Bool) : ComputeOutcome :=
  if archCheckFails cpu then ⟨.INCOMPATIBLE, none, none⟩
  else if vendorMismatch host cpu then ⟨.INCOMPATIBLE, none, none⟩
  else
    match x86ComputeModels map host cpu with
    | none => ⟨.ERROR, none, none⟩
    | some (hm, cf, cr, co, cd, cfb) => x86ComputeInner map cpu wantGuest hm cf cr co cd cfb

/-- Modelled from the spec: `virCPUDefAddFeature` is part of the external
CPUDef accessor contract (§6, `add_feature(name, policy)`), whose code is not
in this tree; it records one more `(feature_name, policy)` pair on the
definition. -/
def virCPUDefAddFeature (cpu : VirCPUDef) (name : String)
    (policy : VirCPUFeaturePolicy) : VirCPUDef :=
  { cpu with features := cpu.features ++ [⟨name, policy⟩] }

/-- `x86DataToCPUFeatures`: greedy subset-peel over the catalog features in
iteration order; each contained feature is subtracted from the working data and
emitted with the given policy.  Returns the grown definition and the remaining
data. -/
def x86DataToCPUFeatures (cpu : VirCPUDef) (policy : VirCPUFeaturePolicy)
    (data : CPUX86Data) : List X86Feature → VirCPUDef × CPUX86Data
  | [] => (cpu, data)
  | f :: rest =>
    if x86DataIsSubset data f.data then
      x86DataToCPUFeatures (virCPUDefAddFeature cpu f.name policy) policy
        (x86DataSubtract data f.data) rest
    else x86DataToCPUFeatures cpu policy data rest

/-- `x86DataToVendor`: the first catalog vendor whose leaf is mask-contained in
the data wins, and its bits are cleared from the data. -/
def x86DataToVendor : List X86Vendor → CPUX86Data → Option X86Vendor × CPUX86Data
  | [], d => (none, d)
  | v :: rest, d =>
    match x86DataCpuid d v.cpuid.function with
    | some c =>
      if x86cpuidMatchMasked c v.cpuid then (some v, x86DataClearBitsAt d v.cpuid)
      else x86DataToVendor rest d
    | none => x86DataToVendor rest d

/-- `x86DataToCPU`: build the guest-typed CPU definition a candidate model
gives to a CPUID snapshot: extract a vendor, peel REQUIRE features from
`data − model.data` and DISABLE features from `model.data − data`. -/
def x86DataToCPU (data : CPUX86Data) (model : X86Model) (map : X86Map) : VirCPUDef :=
  let vc := x86DataToVendor map.vendors (x86DataCopy data)
  let copy := x86DataSubtract vc.2 (x86DataCopy model.data)
  let modelData := x86DataSubtract (x86DataCopy model.data) data
  let cpu0 : VirCPUDef :=
    { arch := .NONE, type := .GUEST, mode := .CUSTOM, matchMode := .MINIMUM,
      fallback := .ALLOW, model := model.name,
      vendor := vc.1.map (fun v => v.name), features := [] }
  let p1 := x86DataToCPUFeatures cpu0 .REQUIRE copy map.features
  (x86DataToCPUFeatures p1.1 .DISABLE modelData map.features).1

/-- Modelled from the spec: `cpuModelIsAllowed` lives in the generic driver
(`cpu.c`), not in this tree; the spec says models disallowed by the caller's
optional allowlist are skipped and that the allowlist is optional (absent
allowlist allows every model). -/
def cpuModelIsAllowed (model : String) (models : Option (List String)) : Bool :=
  match models with
  | none => true
  | some l => l.contains model

/-- Decoder skip condition: the candidate model declares a vendor and the
decoded definition extracted a different one. -/
def decodeVendorConflicts (candidate : X86Model) (decoded : VirCPUDef) : Bool :=
  match candidate.vendor, decoded.vendor with
  | some v, some w => v.name != w
  | _, _ => false

/-- Decoder host handling: a host-typed caller drops candidates containing any
DISABLE feature and blanks the feature policies to the `-1` sentinel. -/
def decodeHostAdjust (cand : VirCPUDef) : Option VirCPUDef :=
  if cand.features.any (fun f => f.policy = .DISABLE) then none
  else some { cand with
              type := .HOST,
              features := cand.features.map (fun f => { f with policy := .UNSET }) }

/-- One decoder candidate after the vendor-conflict and host checks; `none`
when the candidate is skipped. -/
def x86DecodeCandidate (cpu : VirCPUDef) (data : CPUX86Data) (map : X86Map)
    (c : X86Model) : Option VirCPUDef :=
  let cand := x86DataToCPU data c map
  if decodeVendorConflicts c cand then none
  else if cpu.type = .HOST then decodeHostAdjust cand
  else some cand

inductive DecodeError where
  | unsupported
  | nosuitable
  | internal
deriving DecidableEq

/-- The candidate loop of `x86Decode`, carrying the best candidate so far
together with its catalog model's data. -/
def x86DecodeLoop (cpu : VirCPUDef) (data : CPUX86Data) (map : X86Map)
    (models : Option (List String)) (preferred : Option String) :
    List X86Model → Option (VirCPUDef × CPUX86Data) →
    Except DecodeError (Option (VirCPUDef × CPUX86Data))
  | [], best => .ok best
  | c :: rest, best =>
    if cpuModelIsAllowed c.name models then
      match x86DecodeCandidate cpu data map c with
      | none => x86DecodeLoop cpu data map models preferred rest best
      | some cand =>
        if preferred = some cand.model then .ok (some (cand, c.data))
        else
          if (match best with
              | none => true
              | some b => b.1.features.length > cand.features.length) then
            x86DecodeLoop cpu data map models preferred rest (some (cand, c.data))
          else x86DecodeLoop cpu data map models preferred rest best
    else
      if preferred = some c.name ∧ cpu.fallback ≠ .ALLOW then .error .unsupported
      else x86DecodeLoop cpu data map models preferred rest best

/-- `x86DataFromCPUFeatures`: union of the data of every feature listed on the
definition; an unknown name fails. -/
def x86DataFromCPUFeaturesGo (map : X86Map) :
    List VirCPUFeature → CPUX86Data → Option CPUX86Data
  | [], d => some d
  | f :: rest, d =>
    match x86FeatureFind map f.name with
    | none => none
    | some feat => x86DataFromCPUFeaturesGo map rest (x86DataAdd d feat.data)

def x86DataFromCPUFeatures (cpu : VirCPUDef) (map : X86Map) : Option CPUX86Data :=
  x86DataFromCPUFeaturesGo map cpu.features ⟨[], []⟩

/-- `x86Decode`: run the candidate loop over the catalog models, fail with
`nosuitable` when nothing survived, optionally expand the selected model's
residual feature bits, and install model, vendor and features on the caller's
definition. -/
def x86Decode (cpu : VirCPUDef) (data : CPUX86Data) (map : X86Map)
    (models : Option (List String)) (preferred : Option String)
    (expandFeatures : Bool) : Except DecodeError VirCPUDef :=
  match x86DecodeLoop cpu data map models preferred map.models none with
  | .error e => .error e
  | .ok none => .error .nosuitable
  | .ok (some (cpuModel, cpuData)) =>
    if expandFeatures then
      match x86DataFromCPUFeatures cpuModel map with
      | none => .error .internal
      | some fdata =>
        let p := x86DataToCPUFeatures cpuModel .REQUIRE
          (x86DataSubtract (x86DataCopy cpuData) fdata) map.features
        .ok { cpu with model := p.1.model, vendor := p.1.vendor, features := p.1.features }
    else
      .ok { cpu with
            model := cpuModel.model, vendor := cpuModel.vendor,
            features := cpuModel.features }

/-- Candidates that survive the decoder's allowlist, vendor and host checks
(the spec's "surviving candidates"). -/
def decodeSpecSurvives (cpu : VirCPUDef) (data : CPUX86Data) (map : X86Map)
    (models : Option (List String)) (c : X86Model) : Bool :=
  cpuModelIsAllowed c.name models && (x86DecodeCandidate cpu data map c).isSome

/-- One step of the spec's selection rule: keep the candidate with the fewest
features, ties resolved for the earlier candidate. -/
def decodeSpecFold (cpu : VirCPUDef) (data : CPUX86Data) (map : X86Map)
    (best : Option (VirCPUDef × CPUX86Data)) (c : X86Model) :
    Option (VirCPUDef × CPUX86Data) :=
  match x86DecodeCandidate cpu data map c with
  | some cand =>
    match best with
    | none => some (cand, c.data)
    | some b =>
      if b.1.features.length > cand.features.length then some (cand, c.data) else best
  | none => best

/-- The spec's selection rule without a preferred model: among all

surviving candidates, the one with the fewest features, earlier candidates
winning ties. -/
def decodeSpecBest (cpu : VirCPUDef) (data : CPUX86Data) (map : X86Map)
    (models : Option (List String)) (cands : List X86Model) :
    Option (VirCPUDef × CPUX86Data) :=
  (cands.filter (decodeSpecSurvives cpu data map models)).foldl
    (decodeSpecFold cpu data map) none

/-- `virReadBufInt32LE` over a byte list. -/
def virReadBufInt32LE (b : List Nat) (off : Nat) : Nat :=
  b.getD off 0 + b.getD (off + 1) 0 * 256 + b.getD (off + 2) 0 * 65536 +
    b.getD (off + 3) 0 * 16777216

/-- `VENDOR_STRING_LENGTH`. -/
def VENDOR_STRING_LENGTH : Nat := 12

/-- The attributes `x86VendorLoad` reads from one catalog `<vendor>` element:
the XML layer hands over an optional `name` and an optional byte string. -/
structure VendorXML where
  name : Option String
  string : Option (List Nat)
deriving DecidableEq

/-- What one loader call produces: the callback's return value, whether a
libvirt error was reported, and the resulting catalog. -/
structure LoadResult where
  ret : Int
  reported : Bool
  map : X86Map
deriving DecidableEq

/-- `x86VendorLoad`: validation failures report an error, free the element and
leave `ret` at 0 (the `goto ignore` paths); only internal failures (allocation)
take the `error` label and return -1, which cannot happen here. -/
def x86VendorLoad (x : VendorXML) (map : X86Map) : LoadResult :=
  match x.name with
  | none => ⟨0, true, map⟩
  | some n =>
    if (x86VendorFind map n).isSome then ⟨0, true, map⟩
    else
      match x.string with
      | none => ⟨0, true, map⟩
      | some s =>
        if s.length ≠ VENDOR_STRING_LENGTH then ⟨0, true, map⟩
        else
          ⟨0, false,
           { map with vendors :=
              { name := n,
                cpuid := { function := 0, eax := 0, ebx := virReadBufInt32LE s 0,
                           ecx := virReadBufInt32LE s 8,
                           edx := virReadBufInt32LE s 4 } } :: map.vendors }⟩

/-- One parsed `<cpuid>` element of a `<feature>`: `none` in `function` models
a missing or malformed function attribute (`ret_fun < 0`), `none` in a register
models a malformed hex value (`ret_* == -2`; a missing register defaults to
`some 0`). -/
structure CpuidXML where
  function : Option Nat
  eax : Option Nat
  ebx : Option Nat
  ecx : Option Nat
  edx : Option Nat
deriving DecidableEq

def cpuidFromXML (x : CpuidXML) : Option CPUX86cpuid :=
  match x.function, x.eax, x.ebx, x.ecx, x.edx with
  | some f, some a, some b, some c, some d => some ⟨f, a, b, c, d⟩
  | _, _, _, _, _ => none

structure FeatureXML where
  name : Option String
  cpuids : List CpuidXML
deriving DecidableEq

def x86FeatureLoadCpuids : List CpuidXML → CPUX86Data → Option CPUX86Data
  | [], d => some d
  | x :: rest, d =>
    match cpuidFromXML x with
    | none => none
    | some c => x86FeatureLoadCpuids rest (x86DataAddCpuid d c)

/-- `x86FeatureLoad`: missing name, duplicate name and malformed cpuid records
all take `goto ignore` (error reported, element dropped, `ret` still 0). -/
def x86FeatureLoad (x : FeatureXML) (map : X86Map) : LoadResult :=
  match x.name with
  | none => ⟨0, true, map⟩
  | some n =>
    if (x86FeatureFind map n).isSome then ⟨0, true, map⟩
    else
      match x86FeatureLoadCpuids x.cpuids ⟨[], []⟩ with
      | none => ⟨0, true, map⟩
      | some d => ⟨0, false, { map with features := ⟨n, d⟩ :: map.features }⟩

/-- One parsed `<model>` element: the outer `Option` of `ancestor`/`vendor`
distinguishes an absent nested element from one whose name attribute is missing
or empty. -/
structure ModelXML where
  name : Option String
  ancestor : Option (Option String)
  vendor : Option (Option String)
  features : List (Option String)
deriving DecidableEq

def x86ModelLoadFeatures (map : X86Map) :
    List (Option String) → CPUX86Data → Option CPUX86Data
  | [], d => some d
  | none :: _, _ => none
  | some n :: rest, d =>
    match x86FeatureFind map n with
    | none => none
    | some f => x86ModelLoadFeatures map rest (x86DataAdd d f.data)

/-- `x86ModelLoad`: there is no duplicate-name check for models; every
validation failure takes `goto ignore` (error reported, `ret` 0). -/
def x86ModelLoad (x : ModelXML) (map : X86Map) : LoadResult :=
  match x.name with
  | none => ⟨0, true, map⟩
  | some n =>
    let anc : Option (Option X86Model) :=
      match x.ancestor with
      | none => some none
      | some none => none
      | some (some an) =>
        match x86ModelFind map an with
        | none => none
        | some m => some (some m)
    match anc with
    | none => ⟨0, true, map⟩
    | some base =>
      let data0 := match base with
        | some m => x86DataCopy m.data
        | none => (⟨[], []⟩ : CPUX86Data)
      let vendor0 : Option X86Vendor := match base with
        | some m => m.vendor
        | none => none
      let ven : Option (Option X86Vendor) :=
        match x.vendor with
        | none => some vendor0
        | some none => none
        | some (some vn) =>
          match x86VendorFind map vn with
          | none => none
          | some v => some (some v)
      match ven with
      | none => ⟨0, true, map⟩
      | some v =>
        match x86ModelLoadFeatures map x.features data0 with
        | none => ⟨0, true, map⟩
        | some d => ⟨0, false, { map with models := ⟨n, v, d⟩ :: map.models }⟩

/-- `x86HasFeature`: `ret` starts at -1 and is only overwritten once the
feature name resolves, so an unknown feature yields -1. -/
def x86HasFeature (map : X86Map) (data : CPUX86Data) (name : String) : Int :=
  match x86FeatureFind map name with
  | none => -1
  | some feature => if x86DataIsSubset data feature.data then 1 else 0

/-- The OPTIONAL-rewriting loop of `x86UpdateCustom`: OPTIONAL features become
REQUIRE when the host model contains them and DISABLE otherwise; an unknown
name stops the loop with the error flag, leaving the remaining entries
untouched. -/
def rewriteOptional (map : X86Map) (hostData : CPUX86Data) :
    List VirCPUFeature → Bool × List VirCPUFeature
  | [] => (true, [])
  | f :: rest =>
    if f.policy = .OPTIONAL then
      match x86FeatureFind map f.name with
      | none => (false, f :: rest)
      | some feat =>
        let p : VirCPUFeaturePolicy :=
          if x86DataIsSubset hostData feat.data then .REQUIRE else .DISABLE
        let r := rewriteOptional map hostData rest
        (r.1, { f with policy := p } :: r.2)
    else
      let r := rewriteOptional map hostData rest
      (r.1, f :: r.2)

def x86ModelSubtractFeatures (map : X86Map) :
    List VirCPUFeature → CPUX86Data → Option CPUX86Data
  | [], d => some d
  | f :: rest, d =>
    match x86FeatureFind map f.name with
    | none => none
    | some feat => x86ModelSubtractFeatures map rest (x86DataSubtract d feat.data)

/-- `x86ModelSubtractCPU`: subtract the cpu's model data and every listed
feature's data from the model. -/
def x86ModelSubtractCPU (model : X86Model) (cpu : VirCPUDef) (map : X86Map) :
    Option CPUX86Data :=
  match x86ModelFind map cpu.model with
  | none => none
  | some cm => x86ModelSubtractFeatures map cpu.features (x86DataSubtract model.data cm.data)

/-- `x86UpdateCustom`: rewrite the guest's OPTIONAL features against the host
model in place, then under MINIMUM match promote to EXACT and append the
host's remaining feature bits as REQUIRE features.  Returns the C return code
together with the guest definition as this call leaves it. -/
def x86UpdateCustom (map : X86Map) (guest host : VirCPUDef) : Int × VirCPUDef :=
  match x86ModelFromCPU host map .REQUIRE with
  | none => (-1, guest)
  | some hm =>
    let r := rewriteOptional map hm.data guest.features
    let g1 := { guest with features := r.2 }
    if r.1 = false then (-1, g1)
    else
      if g1.matchMode = .MINIMUM then
        let g2 := { g1 with matchMode := .EXACT }
        match x86ModelSubtractCPU hm g2 map with
        | none => (-1, g2)
        | some rest => (0, (x86DataToCPUFeatures g2 .REQUIRE rest map.features).1)
      else (0, g1)

/-- The test catalog from the specification: vendor `Intel`, features `fpu`
(leaf 1 edx bit 0), `sse2` (leaf 1 edx bit 26), `lm` (leaf 0x80000001 edx bit
29), models `base` ⊂ `core2` ⊂ `x86_64`.  The lists are in head-insertion
(reverse load) order. -/
def fpuData : CPUX86Data := ⟨[⟨0, 0, 0, 0, 0⟩, ⟨1, 0, 0, 0, 1⟩], []⟩

def sse2Data : CPUX86Data := ⟨[⟨0, 0, 0, 0, 0⟩, ⟨1, 0, 0, 0, 0x4000000⟩], []⟩

def lmData : CPUX86Data :=
  ⟨[], [⟨0x80000000, 0, 0, 0, 0⟩, ⟨0x80000001, 0, 0, 0, 0x20000000⟩]⟩

def intelVendor : X86Vendor := ⟨"Intel", ⟨0, 0, 0x756e6547, 0x6c65746e, 0x49656e69⟩⟩

def core2Data : CPUX86Data := ⟨[⟨0, 0, 0, 0, 0⟩, ⟨1, 0, 0, 0, 0x4000001⟩], []⟩

def x8664Data : CPUX86Data :=
  ⟨[⟨0, 0, 0, 0, 0⟩, ⟨1, 0, 0, 0, 0x4000001⟩],
   [⟨0x80000000, 0, 0, 0, 0⟩, ⟨0x80000001, 0, 0, 0, 0x20000000⟩]⟩

def mapC : X86Map :=
  { vendors := [intelVendor],
    features := [⟨"lm", lmData⟩, ⟨"sse2", sse2Data⟩, ⟨"fpu", fpuData⟩],
    models := [⟨"x86_64", some intelVendor, x8664Data⟩,
               ⟨"core2", some intelVendor, core2Data⟩,
               ⟨"base", none, fpuData⟩] }

def hostX : VirCPUDef :=
  ⟨.X86_64, .HOST, .CUSTOM, .EXACT, .ALLOW, "x86_64", some "Intel", []⟩

def hostC : VirCPUDef :=
  ⟨.X86_64, .HOST, .CUSTOM, .EXACT, .ALLOW, "core2", some "Intel", []⟩

def guestX : VirCPUDef :=
  ⟨.NONE, .GUEST, .CUSTOM, .EXACT, .ALLOW, "x86_64", none, []⟩

def guestCstrict : VirCPUDef :=
  ⟨.NONE, .GUEST, .CUSTOM, .STRICT, .ALLOW, "core2", none, []⟩

/-  Helper lemmas: register-level facts. -/

theorem x86cpuidMatch_refl (c : CPUX86cpuid) : x86cpuidMatch c c = true := by
  simp [x86cpuidMatch]

theorem natClear_self (x : Nat) : x &&& (x ^^^ x) = 0 := by
  rw [Nat.xor_self]
  simp

theorem x86cpuidClearBits_self (c : CPUX86cpuid) :
    x86cpuidClearBits c c = ⟨c.function, 0, 0, 0, 0⟩ := by
  simp [x86cpuidClearBits, natClear_self]

theorem x86cpuidSetBits_function (c m : CPUX86cpuid) :
    (x86cpuidSetBits c m).function = c.function := rfl

theorem x86cpuidClearBits_function (c m : CPUX86cpuid) :
    (x86cpuidClearBits c m).function = c.function := rfl

theorem x86cpuidAndBits_function (c m : CPUX86cpuid) :
    (x86cpuidAndBits c m).function = c.function := rfl

theorem x86cpuidMatchMasked_self (c : CPUX86cpuid) :
    x86cpuidMatchMasked c c = true := by
  simp [x86cpuidMatchMasked]

theorem x86cpuidMatchMasked_null (c : CPUX86cpuid) (m : CPUX86cpuid)
    (h : x86cpuidIsNull m = true) : x86cpuidMatchMasked c m = true := by
  simp only [x86cpuidIsNull, x86cpuidMatch, cpuidNull, Bool.and_eq_true, beq_iff_eq] at h
  simp [x86cpuidMatchMasked, h.1.1.1, h.1.1.2, h.1.2, h.2]

theorem x86cpuidMatchMasked_antisymm {c1 c2 : CPUX86cpuid}
    (h1 : x86cpuidMatchMasked c1 c2 = true) (h2 : x86cpuidMatchMasked c2 c1 = true) :
    x86cpuidMatch c1 c2 = true := by
  simp only [x86cpuidMatchMasked, Bool.and_eq_true, beq_iff_eq] at h1 h2
  have e1 : c1.eax = c2.eax :=
    calc c1.eax = c2.eax &&& c1.eax := (h2.1.1.1).symm
    _ = c1.eax &&& c2.eax := Nat.land_comm _ _
    _ = c2.eax := h1.1.1.1
  have e2 : c1.ebx = c2.ebx :=
    calc c1.ebx = c2.ebx &&& c1.ebx := (h2.1.1.2).symm
    _ = c1.ebx &&& c2.ebx := Nat.land_comm _ _
    _ = c2.ebx := h1.1.1.2
  have e3 : c1.ecx = c2.ecx :=
    calc c1.ecx = c2.ecx &&& c1.ecx := (h2.1.2).symm
    _ = c1.ecx &&& c2.ecx := Nat.land_comm _ _
    _ = c2.ecx := h1.1.2
  have e4 : c1.edx = c2.edx :=
    calc c1.edx = c2.edx &&& c1.edx := (h2.2).symm
    _ = c1.edx &&& c2.edx := Nat.land_comm _ _
    _ = c2.edx := h1.2
  simp [x86cpuidMatch, e1, e2, e3, e4]

/-  Helper lemmas: list-level characterizations of the container operations. -/

theorem zipWithTail_get? (g : CPUX86cpuid → CPUX86cpuid → CPUX86cpuid)
    (l1 l2 : List CPUX86cpuid) (i : Nat) :
    (zipWithTail g l1 l2).get? i =
      match l1.get? i, l2.get? i with
      | some a, some b => some (g a b)
      | some a, none => some a
      | none, _ => none := by
  induction l1 generalizing l2 i with
  | nil =>
    cases l2 with
    | nil => simp [zipWithTail]
    | cons b l2 => simp [zipWithTail]
  | cons a l1 ih =>
    cases l2 with
    | nil =>
      have hz : zipWithTail g (a :: l1) [] = a :: l1 := rfl
      rw [hz]
      cases h : (a :: l1).get? i <;> rfl
    | cons b l2 =>
      cases i with
      | zero => simp [zipWithTail]
      | succ i => simpa [zipWithTail] using ih l2 i

theorem zipWithTail_length (g : CPUX86cpuid → CPUX86cpuid → CPUX86cpuid)
    (l1 l2 : List CPUX86cpuid) : (zipWithTail g l1 l2).length = l1.length := by
  induction l1 generalizing l2 with
  | nil => cases l2 <;> simp [zipWithTail]
  | cons a l1 ih => cases l2 <;> simp [zipWithTail, ih]

theorem listModify_length (l : List CPUX86cpuid) (i : Nat)
    (g : CPUX86cpuid → CPUX86cpuid) : (listModify l i g).length = l.length := by
  unfold listModify
  cases h : l.get? i <;> simp

theorem listModify_get? (l : List CPUX86cpuid) (i : Nat)
    (g : CPUX86cpuid → CPUX86cpuid) (j : Nat) :
    (listModify l i g).get? j =
      if i = j then (l.get? j).map g else l.get? j := by
  unfold listModify
  cases h : l.get? i with
  | none =>
    by_cases hij : i = j
    · subst hij
      rw [if_pos rfl, h]
      rfl
    · rw [if_neg hij]
  | some a =>
    rw [List.get?_set]
    by_cases hij : i = j
    · subst hij
      rw [if_pos rfl, if_pos rfl, h]
      rfl
    · rw [if_neg hij, if_neg hij]

theorem leavesIndexed_iff (n : Nat) (l : List CPUX86cpuid) :
    leavesIndexed n l = true ↔ ∀ i c, l.get? i = some c → c.function = n + i := by
  induction l generalizing n with
  | nil => simp [leavesIndexed]
  | cons a l ih =>
    simp only [leavesIndexed, Bool.and_eq_true, beq_iff_eq, ih]
    constructor
    · rintro ⟨h0, h⟩ i c hc
      cases i with
      | zero =>
        simp only [List.get?] at hc
        cases hc
        simpa using h0
      | succ i =>
        have := h i c hc
        omega
    · intro h
      refine ⟨by simpa using h 0 a rfl, fun i c hc => ?_⟩
      have := h (i + 1) c hc
      omega

theorem x86DataWF_basic {d : CPUX86Data} (h : x86DataWF d = true) :
    ∀ i c, d.basic.get? i = some c → c.function = i := by
  have := (Bool.and_eq_true _ _).mp h
  have hb := (leavesIndexed_iff 0 d.basic).mp this.1
  intro i c hc
  simpa using hb i c hc

theorem x86DataWF_extended {d : CPUX86Data} (h : x86DataWF d = true) :
    ∀ i c, d.extended.get? i = some c → c.function = CPUX86_EXTENDED + i := by
  have := (Bool.and_eq_true _ _).mp h
  exact (leavesIndexed_iff CPUX86_EXTENDED d.extended).mp this.2

theorem x86DataWF_of_parts {d : CPUX86Data}
    (hb : ∀ i c, d.basic.get? i = some c → c.function = i)
    (he : ∀ i c, d.extended.get? i = some c → c.function = CPUX86_EXTENDED + i) :
    x86DataWF d = true := by
  have h1 := (leavesIndexed_iff 0 d.basic).mpr (by simpa using hb)
  have h2 := (leavesIndexed_iff CPUX86_EXTENDED d.extended).mpr he
  simp [x86DataWF, h1, h2]

theorem x86DataWF_zipWithTail {d1 : CPUX86Data} (h : x86DataWF d1 = true)
    (g : CPUX86cpuid → CPUX86cpuid → CPUX86cpuid)
    (hg : ∀ a b, (g a b).function = a.function) (l2 l3 : List CPUX86cpuid) :
    x86DataWF ⟨zipWithTail g d1.basic l2, zipWithTail g d1.extended l3⟩ = true := by
  apply x86DataWF_of_parts
  · intro i c hc
    rw [zipWithTail_get?] at hc
    cases h1 : d1.basic.get? i with
    | none => rw [h1] at hc; cases hc
    | some a =>
      rw [h1] at hc
      cases h2 : l2.get? i with
      | none =>
        rw [h2] at hc
        injection hc with hac
        rw [← hac]
        exact x86DataWF_basic h i a h1
      | some b =>
        rw [h2] at hc
        injection hc with hac
        rw [← hac, hg a b]
        exact x86DataWF_basic h i a h1
  · intro i c hc
    rw [zipWithTail_get?] at hc
    cases h1 : d1.extended.get? i with
    | none => rw [h1] at hc; cases hc
    | some a =>
      rw [h1] at hc
      cases h2 : l3.get? i with
      | none =>
        rw [h2] at hc
        injection hc with hac
        rw [← hac]
        exact x86DataWF_extended h i a h1
      | some b =>
        rw [h2] at hc
        injection hc with hac
        rw [← hac, hg a b]
        exact x86DataWF_extended h i a h1

theorem x86DataWF_expand {d : CPUX86Data} (h : x86DataWF d = true) (b e : Nat) :
    x86DataWF (x86DataExpand d b e) = true := by
  apply x86DataWF_of_parts
  · intro i c hc
    simp only [x86DataExpand] at hc
    by_cases hi : i < d.basic.length
    · rw [List.get?_append hi] at hc
      exact x86DataWF_basic h i c hc
    · push_neg at hi
      rw [List.get?_append_right hi, List.get?_map] at hc
      cases hr : (List.range b).get? (i - d.basic.length) with
      | none => rw [hr] at hc; cases hc
      | some j =>
        rw [hr] at hc
        obtain ⟨hlt, hj⟩ := List.get?_eq_some.mp hr
        have hji : j = i - d.basic.length := by
          rw [← hj]
          simp
        injection hc with hac
        rw [← hac]
        show d.basic.length + j = i
        omega
  · intro i c hc
    simp only [x86DataExpand] at hc
    by_cases hi : i < d.extended.length
    · rw [List.get?_append hi] at hc
      exact x86DataWF_extended h i c hc
    · push_neg at hi
      rw [List.get?_append_right hi, List.get?_map] at hc
      cases hr : (List.range e).get? (i - d.extended.length) with
      | none => rw [hr] at hc; cases hc
      | some j =>
        rw [hr] at hc
        obtain ⟨hlt, hj⟩ := List.get?_eq_some.mp hr
        have hji : j = i - d.extended.length := by
          rw [← hj]
          simp
        injection hc with hac
        rw [← hac]
        show CPUX86_EXTENDED + (d.extended.length + j) = CPUX86_EXTENDED + i
        omega

theorem x86DataWF_modifyBasic {d : CPUX86Data} (h : x86DataWF d = true) (i : Nat)
    (g : CPUX86cpuid → CPUX86cpuid) (hg : ∀ a, (g a).function = a.function) :
    x86DataWF { d with basic := listModify d.basic i g } = true := by
  apply x86DataWF_of_parts
  · intro j c hc
    rw [show ({ d with basic := listModify d.basic i g } : CPUX86Data).basic =
        listModify d.basic i g from rfl, listModify_get?] at hc
    by_cases hij : i = j
    · rw [if_pos hij] at hc
      cases ha : d.basic.get? j with
      | none => rw [ha] at hc; cases hc
      | some a =>
        rw [ha] at hc
        cases hc
        rw [hg a]
        exact x86DataWF_basic h j a ha
    · rw [if_neg hij] at hc
      exact x86DataWF_basic h j c hc
  · intro j c hc
    exact x86DataWF_extended h j c hc

theorem x86DataWF_modifyExtended {d : CPUX86Data} (h : x86DataWF d = true) (i : Nat)
    (g : CPUX86cpuid → CPUX86cpuid) (hg : ∀ a, (g a).function = a.function) :
    x86DataWF { d with extended := listModify d.extended i g } = true := by
  apply x86DataWF_of_parts
  · intro j c hc
    exact x86DataWF_basic h j c hc
  · intro j c hc
    rw [show ({ d with extended := listModify d.extended i g } : CPUX86Data).extended =
        listModify d.extended i g from rfl, listModify_get?] at hc
    by_cases hij : i = j
    · rw [if_pos hij] at hc
      cases ha : d.extended.get? j with
      | none => rw [ha] at hc; cases hc
      | some a =>
        rw [ha] at hc
        cases hc
        rw [hg a]
        exact x86DataWF_extended h j a ha
    · rw [if_neg hij] at hc
      exact x86DataWF_extended h j c hc

theorem x86DataWF_map {d : CPUX86Data} (h : x86DataWF d = true)
    (g : CPUX86cpuid → CPUX86cpuid) (hg : ∀ a, (g a).function = a.function) :
    x86DataWF ⟨d.basic.map g, d.extended.map g⟩ = true := by
  apply x86DataWF_of_parts
  · intro i c hc
    rw [List.get?_map] at hc
    cases ha : d.basic.get? i with
    | none => rw [ha] at hc; cases hc
    | some a =>
      rw [ha] at hc
      cases hc
      rw [hg a]
      exact x86DataWF_basic h i a ha
  · intro i c hc
    rw [List.get?_map] at hc
    cases ha : d.extended.get? i with
    | none => rw [ha] at hc; cases hc
    | some a =>
      rw [ha] at hc
      cases hc
      rw [hg a]
      exact x86DataWF_extended h i a ha

theorem x86DataIntersectLeaf_function (d2 : CPUX86Data) (c : CPUX86cpuid) :
    (x86DataIntersectLeaf d2 c).function = c.function := by
  unfold x86DataIntersectLeaf
  by_cases hn : x86cpuidIsNull c
  · rw [if_pos hn]
  · rw [if_neg hn]
    cases x86DataCpuid d2 c.function <;> rfl

theorem x86DataWF_addCpuid {d : CPUX86Data} (h : x86DataWF d = true)
    (c : CPUX86cpuid) : x86DataWF (x86DataAddCpuid d c) = true := by
  unfold x86DataAddCpuid
  by_cases hf : c.function < CPUX86_EXTENDED
  · rw [if_pos hf]
    exact x86DataWF_modifyBasic (x86DataWF_expand h _ _) _ _ (fun a => rfl)
  · rw [if_neg hf]
    exact x86DataWF_modifyExtended (x86DataWF_expand h _ _) _ _ (fun a => rfl)

theorem x86DataWF_add {d1 : CPUX86Data} (h : x86DataWF d1 = true) (d2 : CPUX86Data) :
    x86DataWF (x86DataAdd d1 d2) = true := by
  exact x86DataWF_zipWithTail (x86DataWF_expand h _ _) x86cpuidSetBits
    (fun a b => rfl) d2.basic d2.extended

theorem x86DataWF_subtract {d1 : CPUX86Data} (h : x86DataWF d1 = true) (d2 : CPUX86Data) :
    x86DataWF (x86DataSubtract d1 d2) = true := by
  exact x86DataWF_zipWithTail h x86cpuidClearBits (fun a b => rfl) d2.basic d2.extended

theorem x86DataWF_intersect {d1 : CPUX86Data} (h : x86DataWF d1 = true) (d2 : CPUX86Data) :
    x86DataWF (x86DataIntersect d1 d2) = true := by
  exact x86DataWF_map h _ (x86DataIntersectLeaf_function d2)

theorem x86DataWF_clearBitsAt {d : CPUX86Data} (h : x86DataWF d = true)
    (mask : CPUX86cpuid) : x86DataWF (x86DataClearBitsAt d mask) = true := by
  unfold x86DataClearBitsAt
  by_cases hf : mask.function < CPUX86_EXTENDED
  · rw [if_pos hf]
    exact x86DataWF_modifyBasic h _ _ (fun a => rfl)
  · rw [if_neg hf]
    exact x86DataWF_modifyExtended h _ _ (fun a => rfl)

theorem x86DataExpand_basic_length (d : CPUX86Data) (b e : Nat) :
    (x86DataExpand d b e).basic.length = d.basic.length + b := by
  simp [x86DataExpand]

theorem x86DataExpand_extended_length (d : CPUX86Data) (b e : Nat) :
    (x86DataExpand d b e).extended.length = d.extended.length + e := by
  simp [x86DataExpand]

theorem x86DataAddCpuid_length (d : CPUX86Data) (c : CPUX86cpuid) :
    d.basic.length ≤ (x86DataAddCpuid d c).basic.length ∧
    d.extended.length ≤ (x86DataAddCpuid d c).extended.length := by
  unfold x86DataAddCpuid
  by_cases hf : c.function < CPUX86_EXTENDED <;>
    simp [hf, listModify_length, x86DataExpand_basic_length, x86DataExpand_extended_length]

theorem x86DataAdd_length (d1 d2 : CPUX86Data) :
    d1.basic.length ≤ (x86DataAdd d1 d2).basic.length ∧
    d1.extended.length ≤ (x86DataAdd d1 d2).extended.length := by
  unfold x86DataAdd
  constructor <;>
    simp [zipWithTail_length, x86DataExpand_basic_length, x86DataExpand_extended_length]

theorem x86DataSubtract_length (d1 d2 : CPUX86Data) :
    (x86DataSubtract d1 d2).basic.length = d1.basic.length ∧
    (x86DataSubtract d1 d2).extended.length = d1.extended.length := by
  exact ⟨zipWithTail_length _ _ _, zipWithTail_length _ _ _⟩

theorem x86DataIntersect_length (d1 d2 : CPUX86Data) :
    (x86DataIntersect d1 d2).basic.length = d1.basic.length ∧
    (x86DataIntersect d1 d2).extended.length = d1.extended.length := by
  constructor <;> simp [x86DataIntersect]

theorem x86DataClearBitsAt_length (d : CPUX86Data) (mask : CPUX86cpuid) :
    (x86DataClearBitsAt d mask).basic.length = d.basic.length ∧
    (x86DataClearBitsAt d mask).extended.length = d.extended.length := by
  unfold x86DataClearBitsAt
  by_cases hf : mask.function < CPUX86_EXTENDED <;> simp [hf, listModify_length]

/-- C4: every algebra operation that creates or mutates a `CPUX86Data`
container — copy, expand, add, add_cpuid, subtract, intersect, and the
vendor-bit clearing used as a scratch mutation by Compute/Decode — preserves
the structural invariant that `basic[i].function == i` and
`extended[i].function == CPUX86_EXTENDED + i` for every index within the
current lengths, and no operation shrinks `basic_len` or `extended_len`. -/
theorem x86Data_ops_preserve_invariant :
    ∀ (d1 d2 : CPUX86Data) (c : CPUX86cpuid) (b e : Nat),
      (x86DataWF d1 = true →
        x86DataWF (x86DataCopy d1) = true ∧
        x86DataWF (x86DataExpand d1 b e) = true ∧
        x86DataWF (x86DataAddCpuid d1 c) = true ∧
        x86DataWF (x86DataAdd d1 d2) = true ∧
        x86DataWF (x86DataSubtract d1 d2) = true ∧
        x86DataWF (x86DataIntersect d1 d2) = true ∧
        x86DataWF (x86DataClearBitsAt d1 c) = true) ∧
      (d1.basic.length ≤ (x86DataCopy d1).basic.length ∧
       d1.extended.length ≤ (x86DataCopy d1).extended.length) ∧
      (d1.basic.length ≤ (x86DataExpand d1 b e).basic.length ∧
       d1.extended.length ≤ (x86DataExpand d1 b e).extended.length) ∧
      (d1.basic.length ≤ (x86DataAddCpuid d1 c).basic.length ∧
       d1.extended.length ≤ (x86DataAddCpuid d1 c).extended.length) ∧
      (d1.basic.length ≤ (x86DataAdd d1 d2).basic.length ∧
       d1.extended.length ≤ (x86DataAdd d1 d2).extended.length) ∧
      (d1.basic.length ≤ (x86DataSubtract d1 d2).basic.length ∧
       d1.extended.length ≤ (x86DataSubtract d1 d2).extended.length) ∧
      (d1.basic.length ≤ (x86DataIntersect d1 d2).basic.length ∧
       d1.extended.length ≤ (x86DataIntersect d1 d2).extended.length) ∧
      (d1.basic.length ≤ (x86DataClearBitsAt d1 c).basic.length ∧
       d1.extended.length ≤ (x86DataClearBitsAt d1 c).extended.length) := by
  intro d1 d2 c b e
  refine ⟨fun h => ⟨h, x86DataWF_expand h b e, x86DataWF_addCpuid h c,
    x86DataWF_add h d2, x86DataWF_subtract h d2, x86DataWF_intersect h d2,
    x86DataWF_clearBitsAt h c⟩,
    ⟨le_refl _, le_refl _⟩, ?_, x86DataAddCpuid_length d1 c, x86DataAdd_length d1 d2,
    ?_, ?_, ?_⟩
  · rw [x86DataExpand_basic_length, x86DataExpand_extended_length]
    omega
  · rw [(x86DataSubtract_length d1 d2).1, (x86DataSubtract_length d1 d2).2]
    omega
  · rw [(x86DataIntersect_length d1 d2).1, (x86DataIntersect_length d1 d2).2]
    omega
  · rw [(x86DataClearBitsAt_length d1 c).1, (x86DataClearBitsAt_length d1 c).2]
    omega

theorem x86Data_ops_preserve_invariant_witness :
    x86DataWF (x86DataAdd core2Data lmData) = true ∧
    core2Data.basic.length ≤ (x86DataAdd core2Data lmData).basic.length := by
  have h := x86Data_ops_preserve_invariant core2Data lmData ⟨1, 0, 0, 0, 4⟩ 2 1
  exact ⟨(h.1 (by decide)).2.2.2.1, h.2.2.2.2.1.1⟩

/-- C5: `subtract` clears bits of `d1` only at leaf positions existing in both
containers (indices below the minimum of both lengths, separately for `basic`
and `extended`) and leaves every other leaf of `d1` unchanged, whereas
`intersect` keeps null leaves untouched, ands the registers where `d2` stores
a non-null leaf for the function, and zeroes the registers of every non-null
leaf of `d1` whose function is absent or null in `d2`. -/
theorem x86Data_subtract_intersect_shape :
    ∀ (d1 d2 : CPUX86Data),
      ((x86DataSubtract d1 d2).basic.length = d1.basic.length ∧
       (x86DataSubtract d1 d2).extended.length = d1.extended.length) ∧
      (∀ i, (x86DataSubtract d1 d2).basic.get? i =
        match d1.basic.get? i, d2.basic.get? i with
        | some a, some bb => some (x86cpuidClearBits a bb)
        | some a, none => some a
        | none, _ => none) ∧
      (∀ i, (x86DataSubtract d1 d2).extended.get? i =
        match d1.extended.get? i, d2.extended.get? i with
        | some a, some bb => some (x86cpuidClearBits a bb)
        | some a, none => some a
        | none, _ => none) ∧
      ((x86DataIntersect d1 d2).basic.length = d1.basic.length ∧
       (x86DataIntersect d1 d2).extended.length = d1.extended.length) ∧
      (∀ i a, d1.basic.get? i = some a →
        (x86cpuidIsNull a = true → (x86DataIntersect d1 d2).basic.get? i = some a) ∧
        (x86cpuidIsNull a = false →
          (∀ c2, x86DataCpuid d2 a.function = some c2 →
            (x86DataIntersect d1 d2).basic.get? i = some (x86cpuidAndBits a c2)) ∧
          (x86DataCpuid d2 a.function = none →
            (x86DataIntersect d1 d2).basic.get? i = some ⟨a.function, 0, 0, 0, 0⟩))) ∧
      (∀ i a, d1.extended.get? i = some a →
        (x86cpuidIsNull a = true → (x86DataIntersect d1 d2).extended.get? i = some a) ∧
        (x86cpuidIsNull a = false →
          (∀ c2, x86DataCpuid d2 a.function = some c2 →
            (x86DataIntersect d1 d2).extended.get? i = some (x86cpuidAndBits a c2)) ∧
          (x86DataCpuid d2 a.function = none →
            (x86DataIntersect d1 d2).extended.get? i = some ⟨a.function, 0, 0, 0, 0⟩))) := by
  intro d1 d2
  refine ⟨x86DataSubtract_length d1 d2,
    fun i => zipWithTail_get? _ _ _ i, fun i => zipWithTail_get? _ _ _ i,
    x86DataIntersect_length d1 d2, ?_, ?_⟩
  · intro i a ha
    have hb : (x86DataIntersect d1 d2).basic = d1.basic.map (x86DataIntersectLeaf d2) := rfl
    refine ⟨fun hn => ?_, fun hn => ⟨fun c2 hc2 => ?_, fun hnone => ?_⟩⟩
    · rw [hb, List.get?_map, ha]
      simp [x86DataIntersectLeaf, hn]
    · rw [hb, List.get?_map, ha]
      simp [x86DataIntersectLeaf, hn, hc2]
    · rw [hb, List.get?_map, ha]
      simp [x86DataIntersectLeaf, hn, hnone, x86cpuidClearBits_self]
  · intro i a ha
    have hb : (x86DataIntersect d1 d2).extended = d1.extended.map (x86DataIntersectLeaf d2) := rfl
    refine ⟨fun hn => ?_, fun hn => ⟨fun c2 hc2 => ?_, fun hnone => ?_⟩⟩
    · rw [hb, List.get?_map, ha]
      simp [x86DataIntersectLeaf, hn]
    · rw [hb, List.get?_map, ha]
      simp [x86DataIntersectLeaf, hn, hc2]
    · rw [hb, List.get?_map, ha]
      simp [x86DataIntersectLeaf, hn, hnone, x86cpuidClearBits_self]

theorem x86Data_subtract_intersect_shape_witness :
    (x86DataSubtract x8664Data core2Data).extended.get? 1 =
      some ⟨0x80000001, 0, 0, 0, 0x20000000⟩ ∧
    (x86DataIntersect x8664Data fpuData).extended.get? 1 =
      some ⟨0x80000001, 0, 0, 0, 0⟩ := by
  constructor
  · rw [(x86Data_subtract_intersect_shape x8664Data core2Data).2.2.1 1]
    rfl
  · exact (((x86Data_subtract_intersect_shape x8664Data fpuData).2.2.2.2.2 1
      ⟨0x80000001, 0, 0, 0, 0x20000000⟩ rfl).2 rfl).2 rfl

theorem x86cpuidIsNull_mk (f : Nat) : x86cpuidIsNull ⟨f, 0, 0, 0, 0⟩ = true := rfl

theorem x86cpuidMatchMasked_of_match {x y : CPUX86cpuid}
    (h : x86cpuidMatch x y = true) : x86cpuidMatchMasked x y = true := by
  simp only [x86cpuidMatch, Bool.and_eq_true, beq_iff_eq] at h
  simp [x86cpuidMatchMasked, h.1.1.1, h.1.1.2, h.1.2, h.2]

theorem x86cpuidMatchMasked_of_match_symm {x y : CPUX86cpuid}
    (h : x86cpuidMatch x y = true) : x86cpuidMatchMasked y x = true := by
  simp only [x86cpuidMatch, Bool.and_eq_true, beq_iff_eq] at h
  simp [x86cpuidMatchMasked, h.1.1.1, h.1.1.2, h.1.2, h.2]

theorem matchMasked_null_left {x y : CPUX86cpuid}
    (h : x86cpuidMatchMasked x y = true) (hx : x86cpuidIsNull x = true) :
    x86cpuidIsNull y = true := by
  simp only [x86cpuidIsNull, x86cpuidMatch, cpuidNull, Bool.and_eq_true, beq_iff_eq] at hx
  simp only [x86cpuidMatchMasked, Bool.and_eq_true, beq_iff_eq] at h
  rw [hx.1.1.1, hx.1.1.2, hx.1.2, hx.2] at h
  simp only [x86cpuidIsNull, x86cpuidMatch, cpuidNull, Bool.and_eq_true, beq_iff_eq]
  simp at h
  tauto

theorem isNull_false_of_not_matchMasked {x y : CPUX86cpuid}
    (h : x86cpuidMatchMasked x y = false) : x86cpuidIsNull y = false := by
  cases hy : x86cpuidIsNull y with
  | false => rfl
  | true => rw [x86cpuidMatchMasked_null x y hy] at h; cases h

theorem x86DataCpuid_function {d : CPUX86Data} {f : Nat} {c : CPUX86cpuid}
    (hwf : x86DataWF d = true) (h : x86DataCpuid d f = some c) : c.function = f := by
  unfold x86DataCpuid at h
  by_cases hf : f < CPUX86_EXTENDED
  · rw [if_pos hf] at h
    cases hg : d.basic.get? f with
    | none => rw [hg] at h; cases h
    | some a =>
      simp only [hg] at h
      by_cases hn : x86cpuidIsNull a = true
      · rw [if_pos hn] at h; cases h
      · rw [if_neg hn] at h
        injection h with h
        rw [← h]
        exact x86DataWF_basic hwf f a hg
  · rw [if_neg hf] at h
    cases hg : d.extended.get? (f - CPUX86_EXTENDED) with
    | none => rw [hg] at h; cases h
    | some a =>
      simp only [hg] at h
      by_cases hn : x86cpuidIsNull a = true
      · rw [if_pos hn] at h; cases h
      · rw [if_neg hn] at h
        injection h with h
        rw [← h]
        rw [x86DataWF_extended hwf _ a hg]
        omega

theorem mem_leaves_of_cpuid {d : CPUX86Data} {f : Nat} {c : CPUX86cpuid}
    (h : x86DataCpuid d f = some c) :
    c ∈ x86DataLeaves d ∧ x86cpuidIsNull c = false := by
  unfold x86DataCpuid at h
  have main : ∀ (a : CPUX86cpuid), c = a → x86cpuidIsNull a ≠ true →
      (a ∈ d.basic ∨ a ∈ d.extended) →
      c ∈ x86DataLeaves d ∧ x86cpuidIsNull c = false := by
    intro a hca hn hmem
    subst hca
    simp only [Bool.not_eq_true] at hn
    refine ⟨List.mem_filter.mpr ⟨List.mem_append.mpr hmem, ?_⟩, hn⟩
    simp [hn]
  by_cases hf : f < CPUX86_EXTENDED
  · rw [if_pos hf] at h
    cases hg : d.basic.get? f with
    | none => rw [hg] at h; cases h
    | some a =>
      simp only [hg] at h
      by_cases hn : x86cpuidIsNull a = true
      · rw [if_pos hn] at h; cases h
      · rw [if_neg hn] at h
        injection h with h
        exact main a h.symm hn (Or.inl (List.get?_mem hg))
  · rw [if_neg hf] at h
    cases hg : d.extended.get? (f - CPUX86_EXTENDED) with
    | none => rw [hg] at h; cases h
    | some a =>
      simp only [hg] at h
      by_cases hn : x86cpuidIsNull a = true
      · rw [if_pos hn] at h; cases h
      · rw [if_neg hn] at h
        injection h with h
        exact main a h.symm hn (Or.inr (List.get?_mem hg))

theorem isNull_of_mem_leaves {d : CPUX86Data} {c : CPUX86cpuid}
    (h : c ∈ x86DataLeaves d) : x86cpuidIsNull c = false := by
  have := (List.mem_filter.mp h).2
  simpa using this

theorem x86DataCpuid_basic {d : CPUX86Data} {i : Nat} {c : CPUX86cpuid}
    (hwf : x86DataWF d = true) (hlen : d.basic.length ≤ CPUX86_EXTENDED)
    (hc : d.basic.get? i = some c) (hnn : x86cpuidIsNull c = false) :
    x86DataCpuid d c.function = some c := by
  have hf := x86DataWF_basic hwf i c hc
  have hi : i < d.basic.length := by
    rcases List.get?_eq_some.mp hc with ⟨hlt, _⟩
    exact hlt
  unfold x86DataCpuid
  rw [hf, if_pos (lt_of_lt_of_le hi hlen)]
  have hc2 : d.basic[i]? = some c := by
    rw [← List.get?_eq_getElem?]
    exact hc
  simp [hc2, hnn]

theorem x86DataCpuid_extended {d : CPUX86Data} {i : Nat} {c : CPUX86cpuid}
    (hwf : x86DataWF d = true) (hc : d.extended.get? i = some c)
    (hnn : x86cpuidIsNull c = false) :
    x86DataCpuid d c.function = some c := by
  have hf := x86DataWF_extended hwf i c hc
  unfold x86DataCpuid
  rw [hf, if_neg (by omega), show CPUX86_EXTENDED + i - CPUX86_EXTENDED = i by omega]
  have hc2 : d.extended[i]? = some c := by
    rw [← List.get?_eq_getElem?]
    exact hc
  simp [hc2, hnn]

theorem cpuid_of_mem_leaves {d : CPUX86Data} {c : CPUX86cpuid}
    (hwf : x86DataWF d = true) (hlen : d.basic.length ≤ CPUX86_EXTENDED)
    (hc : c ∈ x86DataLeaves d) : x86DataCpuid d c.function = some c := by
  have hnn := isNull_of_mem_leaves hc
  have hmem := List.mem_append.mp (List.mem_filter.mp hc).1
  cases hmem with
  | inl hb =>
    obtain ⟨i, hi⟩ := List.mem_iff_get?.mp hb
    exact x86DataCpuid_basic hwf hlen hi hnn
  | inr he =>
    obtain ⟨i, hi⟩ := List.mem_iff_get?.mp he
    exact x86DataCpuid_extended hwf hi hnn

theorem x86DataBitsAt_eq_of_cpuid {d : CPUX86Data} {f : Nat} {c : CPUX86cpuid}
    (h : x86DataCpuid d f = some c) : x86DataBitsAt d f = c := by
  unfold x86DataBitsAt
  rw [h]
  rfl

theorem x86DataBitsAt_of_none {d : CPUX86Data} {f : Nat}
    (h : x86DataCpuid d f = none) : x86DataBitsAt d f = ⟨f, 0, 0, 0, 0⟩ := by
  unfold x86DataBitsAt
  rw [h]
  rfl

theorem x86DataCpuid_of_bitsAt_nonnull {d : CPUX86Data} {f : Nat}
    (h : x86cpuidIsNull (x86DataBitsAt d f) = false) :
    x86DataCpuid d f = some (x86DataBitsAt d f) := by
  cases hl : x86DataCpuid d f with
  | some c => rw [x86DataBitsAt_eq_of_cpuid hl]
  | none =>
    rw [x86DataBitsAt_of_none hl, x86cpuidIsNull_mk] at h
    cases h

theorem x86DataSubsetBits_at {A B : CPUX86Data} (h : x86DataSubsetBits A B = true)
    (f : Nat) :
    x86cpuidMatchMasked (x86DataBitsAt B f) (x86DataBitsAt A f) = true := by
  rw [x86DataSubsetBits, Bool.and_eq_true] at h
  obtain ⟨h1, h2⟩ := h
  rw [List.all_eq_true] at h1 h2
  by_cases hf : f < CPUX86_EXTENDED
  · by_cases hfl : f < A.basic.length
    · exact h1 f (List.mem_range.mpr hfl)
    · apply x86cpuidMatchMasked_null
      have hn : x86DataCpuid A f = none := by
        unfold x86DataCpuid
        rw [if_pos hf, List.get?_eq_none.mpr (by omega)]
      rw [x86DataBitsAt_of_none hn]
      exact x86cpuidIsNull_mk f
  · by_cases hfl : f - CPUX86_EXTENDED < A.extended.length
    · have := h2 (f - CPUX86_EXTENDED) (List.mem_range.mpr hfl)
      rwa [show CPUX86_EXTENDED + (f - CPUX86_EXTENDED) = f by omega] at this
    · apply x86cpuidMatchMasked_null
      have hn : x86DataCpuid A f = none := by
        unfold x86DataCpuid
        rw [if_neg hf, List.get?_eq_none.mpr (by omega)]
      rw [x86DataBitsAt_of_none hn]
      exact x86cpuidIsNull_mk f

theorem x86DataSubsetBits_false {A B : CPUX86Data}
    (h : x86DataSubsetBits A B = false) :
    ∃ f, x86cpuidMatchMasked (x86DataBitsAt B f) (x86DataBitsAt A f) = false := by
  rw [x86DataSubsetBits, Bool.and_eq_false_iff] at h
  cases h with
  | inl h =>
    rw [List.all_eq_false] at h
    obtain ⟨i, _, hp⟩ := h
    refine ⟨i, ?_⟩
    simpa using hp
  | inr h =>
    rw [List.all_eq_false] at h
    obtain ⟨i, _, hp⟩ := h
    refine ⟨CPUX86_EXTENDED + i, ?_⟩
    simpa using hp

theorem x86ModelCompareSignal1_cases {d2 : CPUX86Data} {c1 : CPUX86cpuid}
    {s : CompareResult} (h : x86ModelCompareSignal1 d2 c1 = some s) :
    s = .SUBSET ∨ s = .SUPERSET := by
  unfold x86ModelCompareSignal1 at h
  cases hl : x86DataCpuid d2 c1.function with
  | none =>
    simp only [hl] at h
    injection h with h
    exact Or.inr h.symm
  | some c2 =>
    simp only [hl] at h
    by_cases hm : x86cpuidMatch c1 c2 = true
    · rw [if_pos hm] at h; cases h
    · rw [if_neg hm] at h
      by_cases hmm : x86cpuidMatchMasked c1 c2 = true
      · simp only [hmm] at h
        injection h with h
        exact Or.inr h.symm
      · simp only [Bool.not_eq_true] at hmm
        simp only [hmm] at h
        injection h with h
        exact Or.inl h.symm

theorem x86ModelCompareSignal2_cases {d1 : CPUX86Data} {c2 : CPUX86cpuid}
    {s : CompareResult} (h : x86ModelCompareSignal2 d1 c2 = some s) :
    s = .SUBSET ∨ s = .SUPERSET := by
  unfold x86ModelCompareSignal2 at h
  cases hl : x86DataCpuid d1 c2.function with
  | none =>
    simp only [hl] at h
    injection h with h
    exact Or.inl h.symm
  | some c1 =>
    simp only [hl] at h
    by_cases hm : x86cpuidMatch c2 c1 = true
    · rw [if_pos hm] at h; cases h
    · rw [if_neg hm] at h
      by_cases hmm : x86cpuidMatchMasked c2 c1 = true
      · simp only [hmm] at h
        injection h with h
        exact Or.inl h.symm
      · simp only [Bool.not_eq_true] at hmm
        simp only [hmm] at h
        injection h with h
        exact Or.inr h.symm

theorem x86ModelCompareFold_const {r : CompareResult} (hr : r ≠ .EQUAL)
    {l : List CompareResult} (hall : ∀ s ∈ l, s = r) :
    x86ModelCompareFold r l = r := by
  induction l with
  | nil => rfl
  | cons s rest ih =>
    have hs := hall s (by simp)
    unfold x86ModelCompareFold
    rw [if_neg hr, if_pos (by rw [hs])]
    exact ih (fun s2 h2 => hall s2 (by simp [h2]))

theorem x86ModelCompareFold_eq_of_mem {r : CompareResult}
    {l : List CompareResult} (hne : r ≠ .EQUAL) (hmem : r ∈ l)
    (hall : ∀ s ∈ l, s = r) :
    x86ModelCompareFold .EQUAL l = r := by
  cases l with
  | nil => cases hmem
  | cons s rest =>
    have hs := hall s (by simp)
    unfold x86ModelCompareFold
    rw [if_pos rfl, hs]
    exact x86ModelCompareFold_const hne (fun s2 h2 => hall s2 (by simp [h2]))

theorem x86ModelCompareFold_unrelated_aux {r : CompareResult}
    (hr : r = .SUBSET ∨ r = .SUPERSET) :
    ∀ (l : List CompareResult),
      (∀ s ∈ l, s = .SUBSET ∨ s = .SUPERSET) → (∃ s ∈ l, s ≠ r) →
      x86ModelCompareFold r l = .UNRELATED := by
  intro l
  induction l with
  | nil =>
    rintro _ ⟨s, hs, _⟩
    cases hs
  | cons s rest ih =>
    intro hall hex
    have hrne : r ≠ .EQUAL := by
      cases hr with
      | inl h => rw [h]; intro hh; cases hh
      | inr h => rw [h]; intro hh; cases hh
    unfold x86ModelCompareFold
    rw [if_neg hrne]
    by_cases hs : s = r
    · rw [if_pos hs]
      apply ih (fun s2 h2 => hall s2 (by simp [h2]))
      obtain ⟨s3, hs3, hs3ne⟩ := hex
      cases (List.mem_cons.mp hs3) with
      | inl h => exact absurd (h.trans hs) hs3ne
      | inr h => exact ⟨s3, h, hs3ne⟩
    · rw [if_neg hs]

theorem x86ModelCompareFold_unrelated {l : List CompareResult}
    (hall : ∀ s ∈ l, s = .SUBSET ∨ s = .SUPERSET)
    (h1 : CompareResult.SUBSET ∈ l) (h2 : CompareResult.SUPERSET ∈ l) :
    x86ModelCompareFold .EQUAL l = .UNRELATED := by
  cases l with
  | nil => cases h1
  | cons s rest =>
    unfold x86ModelCompareFold
    rw [if_pos rfl]
    apply x86ModelCompareFold_unrelated_aux (hall s (by simp))
      rest (fun s2 hm => hall s2 (by simp [hm]))
    cases hall s (by simp) with
    | inl hs =>
      refine ⟨.SUPERSET, ?_, by rw [hs]; intro hh; cases hh⟩
      cases (List.mem_cons.mp h2) with
      | inl h => rw [hs] at h; cases h
      | inr h => exact h
    | inr hs =>
      refine ⟨.SUBSET, ?_, by rw [hs]; intro hh; cases hh⟩
      cases (List.mem_cons.mp h1) with
      | inl h => rw [hs] at h; cases h
      | inr h => exact h

theorem x86ModelCompare_self {m : X86Model} (hwf : x86DataWF m.data = true)
    (hlen : m.data.basic.length ≤ CPUX86_EXTENDED) :
    x86ModelCompare m m = .EQUAL := by
  unfold x86ModelCompare
  have h1 : (x86DataLeaves m.data).filterMap (x86ModelCompareSignal1 m.data) = [] := by
    rw [List.filterMap_eq_nil]
    intro c hc
    unfold x86ModelCompareSignal1
    rw [cpuid_of_mem_leaves hwf hlen hc]
    simp [x86cpuidMatch_refl]
  have h2 : (x86DataLeaves m.data).filterMap (x86ModelCompareSignal2 m.data) = [] := by
    rw [List.filterMap_eq_nil]
    intro c hc
    unfold x86ModelCompareSignal2
    rw [cpuid_of_mem_leaves hwf hlen hc]
    simp [x86cpuidMatch_refl]
  rw [h1, h2]
  rfl

theorem x86ModelCompare_subset_of_bits {A B : X86Model}
    (hwfA : x86DataWF A.data = true) (hwfB : x86DataWF B.data = true)
    (hlenA : A.data.basic.length ≤ CPUX86_EXTENDED)
    (hlenB : B.data.basic.length ≤ CPUX86_EXTENDED)
    (hAB : x86DataSubsetBits A.data B.data = true)
    (hBA : x86DataSubsetBits B.data A.data = false) :
    x86ModelCompare A B = .SUBSET := by
  unfold x86ModelCompare
  apply x86ModelCompareFold_eq_of_mem (by intro hh; cases hh)
  · -- a SUBSET verdict is emitted: B has a bit A lacks somewhere
    obtain ⟨f, hf⟩ := x86DataSubsetBits_false hBA
    have hnnBf := isNull_false_of_not_matchMasked hf
    have hlBf := x86DataCpuid_of_bitsAt_nonnull hnnBf
    have hcmem := (mem_leaves_of_cpuid hlBf).1
    have hfunc := x86DataCpuid_function hwfB hlBf
    apply List.mem_append.mpr
    refine Or.inr (List.mem_filterMap.mpr ⟨x86DataBitsAt B.data f, hcmem, ?_⟩)
    unfold x86ModelCompareSignal2
    rw [hfunc]
    cases hl1 : x86DataCpuid A.data f with
    | none => simp only [hl1]
    | some c1 =>
      simp only [hl1]
      have hcont := x86DataSubsetBits_at hAB f
      rw [x86DataBitsAt_eq_of_cpuid hl1] at hcont
      have hm : x86cpuidMatch (x86DataBitsAt B.data f) c1 = false := by
        cases hmq : x86cpuidMatch (x86DataBitsAt B.data f) c1 with
        | false => rfl
        | true =>
          have hq := x86cpuidMatchMasked_of_match_symm hmq
          rw [x86DataBitsAt_eq_of_cpuid hl1] at hf
          rw [hq] at hf
          cases hf
      simp [hm, hcont]
  · -- every verdict is SUBSET
    intro s hs
    cases List.mem_append.mp hs with
    | inl hs1 =>
      obtain ⟨c1, hc1, hsig⟩ := List.mem_filterMap.mp hs1
      have hl1 := cpuid_of_mem_leaves hwfA hlenA hc1
      have hnn1 := isNull_of_mem_leaves hc1
      have hcont := x86DataSubsetBits_at hAB c1.function
      rw [x86DataBitsAt_eq_of_cpuid hl1] at hcont
      have hnnB : x86cpuidIsNull (x86DataBitsAt B.data c1.function) = false := by
        cases hb : x86cpuidIsNull (x86DataBitsAt B.data c1.function) with
        | false => rfl
        | true => rw [matchMasked_null_left hcont hb] at hnn1; cases hnn1
      have hl2 := x86DataCpuid_of_bitsAt_nonnull hnnB
      unfold x86ModelCompareSignal1 at hsig
      simp only [hl2] at hsig
      by_cases hm : x86cpuidMatch c1 (x86DataBitsAt B.data c1.function) = true
      · rw [if_pos hm] at hsig; cases hsig
      · rw [if_neg hm] at hsig
        by_cases hmm : x86cpuidMatchMasked c1 (x86DataBitsAt B.data c1.function) = true
        · exact absurd (x86cpuidMatchMasked_antisymm hmm hcont) hm
        · simp only [Bool.not_eq_true] at hmm
          simp only [hmm] at hsig
          injection hsig with hsig
          exact hsig.symm
    | inr hs2 =>
      obtain ⟨c2, hc2, hsig⟩ := List.mem_filterMap.mp hs2
      have hl2 := cpuid_of_mem_leaves hwfB hlenB hc2
      have hcont := x86DataSubsetBits_at hAB c2.function
      rw [x86DataBitsAt_eq_of_cpuid hl2] at hcont
      unfold x86ModelCompareSignal2 at hsig
      cases hl1 : x86DataCpuid A.data c2.function with
      | none =>
        simp only [hl1] at hsig
        injection hsig with hsig
        exact hsig.symm
      | some c1 =>
        simp only [hl1] at hsig
        rw [x86DataBitsAt_eq_of_cpuid hl1] at hcont
        by_cases hm : x86cpuidMatch c2 c1 = true
        · rw [if_pos hm] at hsig; cases hsig
        · rw [if_neg hm] at hsig
          simp only [hcont] at hsig
          injection hsig with hsig
          exact hsig.symm

theorem x86ModelCompare_unrelated_of_bits {A B : X86Model}
    (hwfA : x86DataWF A.data = true) (hwfB : x86DataWF B.data = true)
    (hlenA : A.data.basic.length ≤ CPUX86_EXTENDED)
    (hlenB : B.data.basic.length ≤ CPUX86_EXTENDED)
    (hAB : x86DataSubsetBits A.data B.data = false)
    (hBA : x86DataSubsetBits B.data A.data = false) :
    x86ModelCompare A B = .UNRELATED := by
  unfold x86ModelCompare
  apply x86ModelCompareFold_unrelated
  · -- every verdict is SUBSET or SUPERSET
    intro s hs
    cases List.mem_append.mp hs with
    | inl hs1 =>
      obtain ⟨c1, _, hsig⟩ := List.mem_filterMap.mp hs1
      exact x86ModelCompareSignal1_cases hsig
    | inr hs2 =>
      obtain ⟨c2, _, hsig⟩ := List.mem_filterMap.mp hs2
      exact x86ModelCompareSignal2_cases hsig
  · -- a SUBSET verdict is emitted (B has a private bit)
    obtain ⟨g, hg⟩ := x86DataSubsetBits_false hBA
    have hnnB := isNull_false_of_not_matchMasked hg
    have hlB := x86DataCpuid_of_bitsAt_nonnull hnnB
    have hmemB := (mem_leaves_of_cpuid hlB).1
    have hfuncB := x86DataCpuid_function hwfB hlB
    apply List.mem_append.mpr
    cases hlA : x86DataCpuid A.data g with
    | none =>
      refine Or.inr (List.mem_filterMap.mpr ⟨x86DataBitsAt B.data g, hmemB, ?_⟩)
      unfold x86ModelCompareSignal2
      rw [hfuncB]
      simp only [hlA]
    | some c1 =>
      have hmemA := (mem_leaves_of_cpuid hlA).1
      have hfuncA := x86DataCpuid_function hwfA hlA
      refine Or.inl (List.mem_filterMap.mpr ⟨c1, hmemA, ?_⟩)
      unfold x86ModelCompareSignal1
      rw [hfuncA, hlB]
      rw [x86DataBitsAt_eq_of_cpuid hlA] at hg
      have hm : x86cpuidMatch c1 (x86DataBitsAt B.data g) = false := by
        cases hmq : x86cpuidMatch c1 (x86DataBitsAt B.data g) with
        | false => rfl
        | true =>
          have hq := x86cpuidMatchMasked_of_match hmq
          rw [hq] at hg
          cases hg
      simp [hm, hg]
  · -- a SUPERSET verdict is emitted (A has a private bit)
    obtain ⟨f, hf⟩ := x86DataSubsetBits_false hAB
    have hnnA := isNull_false_of_not_matchMasked hf
    have hlA := x86DataCpuid_of_bitsAt_nonnull hnnA
    have hmemA := (mem_leaves_of_cpuid hlA).1
    have hfuncA := x86DataCpuid_function hwfA hlA
    apply List.mem_append.mpr
    cases hlB : x86DataCpuid B.data f with
    | none =>
      refine Or.inl (List.mem_filterMap.mpr ⟨x86DataBitsAt A.data f, hmemA, ?_⟩)
      unfold x86ModelCompareSignal1
      rw [hfuncA]
      simp only [hlB]
    | some c2 =>
      have hmemB := (mem_leaves_of_cpuid hlB).1
      have hfuncB := x86DataCpuid_function hwfB hlB
      refine Or.inr (List.mem_filterMap.mpr ⟨c2, hmemB, ?_⟩)
      unfold x86ModelCompareSignal2
      rw [hfuncB, hlA]
      rw [x86DataBitsAt_eq_of_cpuid hlB] at hf
      have hm : x86cpuidMatch c2 (x86DataBitsAt A.data f) = false := by
        cases hmq : x86cpuidMatch c2 (x86DataBitsAt A.data f) with
        | false => rfl
        | true =>
          have hq := x86cpuidMatchMasked_of_match hmq
          rw [hq] at hf
          cases hf
      simp [hm, hf]

/-- C3: the model comparator returns EQUAL when a model is compared with
itself; returns SUBSET when model A's set bits form a strict subset of model
B's bits (leaf-wise containment everywhere, with B owning at least one bit A
lacks); and returns UNRELATED when each side owns at least one bit the other
lacks.  The container invariant (C4) and the basic-array bound of real
containers are assumed. -/
theorem x86ModelCompare_laws :
    (∀ m : X86Model, x86DataWF m.data = true →
      m.data.basic.length ≤ CPUX86_EXTENDED → x86ModelCompare m m = .EQUAL) ∧
    (∀ A B : X86Model, x86DataWF A.data = true → x86DataWF B.data = true →
      A.data.basic.length ≤ CPUX86_EXTENDED →
      B.data.basic.length ≤ CPUX86_EXTENDED →
      x86DataSubsetBits A.data B.data = true →
      x86DataSubsetBits B.data A.data = false →
      x86ModelCompare A B = .SUBSET) ∧
    (∀ A B : X86Model, x86DataWF A.data = true → x86DataWF B.data = true →
      A.data.basic.length ≤ CPUX86_EXTENDED →
      B.data.basic.length ≤ CPUX86_EXTENDED →
      x86DataSubsetBits A.data B.data = false →
      x86DataSubsetBits B.data A.data = false →
      x86ModelCompare A B = .UNRELATED) :=
  ⟨fun _ h1 h2 => x86ModelCompare_self h1 h2,
   fun _ _ h1 h2 h3 h4 h5 h6 => x86ModelCompare_subset_of_bits h1 h2 h3 h4 h5 h6,
   fun _ _ h1 h2 h3 h4 h5 h6 => x86ModelCompare_unrelated_of_bits h1 h2 h3 h4 h5 h6⟩

theorem x86ModelCompare_laws_witness :
    x86ModelCompare ⟨"core2", none, core2Data⟩ ⟨"core2", none, core2Data⟩ = .EQUAL ∧
    x86ModelCompare ⟨"core2", none, core2Data⟩ ⟨"x86_64", none, x8664Data⟩ = .SUBSET ∧
    x86ModelCompare ⟨"sse2", none, sse2Data⟩ ⟨"fpu", none, fpuData⟩ = .UNRELATED := by
  refine ⟨x86ModelCompare_laws.1 _ (by decide) (by decide),
    x86ModelCompare_laws.2.1 _ _ (by decide) (by decide) (by decide) (by decide)
      (by decide) (by decide),
    x86ModelCompare_laws.2.2 _ _ (by decide) (by decide) (by decide) (by decide)
      (by decide) (by decide)⟩

/-- C1: once the screening checks and model construction have succeeded and
the forbid check has passed, `x86Compute` normalizes the require data by
subtracting the force, optional and disable data, and when the comparison of
the host model against that normalized require model yields SUBSET or
UNRELATED it returns INCOMPATIBLE, reporting the features contained in
`cpu_require.data − host_model.data`. -/
theorem x86Compute_require_check :
    ∀ (map : X86Map) (host cpu : VirCPUDef) (wantGuest : Bool)
      (hm cf cr co cd cfb : X86Model),
      archCheckFails cpu = false →
      vendorMismatch host cpu = false →
      x86ComputeModels map host cpu = some (hm, cf, cr, co, cd, cfb) →
      x86DataIsEmpty (x86DataIntersect cfb.data hm.data) = true →
      (x86ModelCompare hm { cr with data := x86DataSubtract (x86DataSubtract
          (x86DataSubtract cr.data cf.data) co.data) cd.data } = .SUBSET ∨
       x86ModelCompare hm { cr with data := x86DataSubtract (x86DataSubtract
          (x86DataSubtract cr.data cf.data) co.data) cd.data } = .UNRELATED) →
      x86Compute map host cpu wantGuest =
        ⟨.INCOMPATIBLE, none,
         some (x86FeatureNames map (x86DataSubtract (x86DataSubtract (x86DataSubtract
           (x86DataSubtract cr.data cf.data) co.data) cd.data) hm.data))⟩ := by
  intro map host cpu wantGuest hm cf cr co cd cfb harch hven hmodels hforbid hcmp
  unfold x86Compute
  simp only [harch, hven, hmodels, Bool.false_eq_true, if_false]
  unfold x86ComputeInner
  rw [hforbid]
  simp only [Bool.true_eq_false, if_false]
  rw [if_pos hcmp]

theorem x86Compute_require_check_witness :
    x86Compute mapC hostC guestX false =
      ⟨.INCOMPATIBLE, none, some ["lm"]⟩ := by
  have h := x86Compute_require_check mapC hostC guestX false _ _ _ _ _ _
    (by decide) (by decide) rfl (by decide) (Or.inl (by decide))
  rw [h]
  rfl

/-- C2: past the arch, vendor, forbid, and require checks, with `diff` the
host model's data minus the cpu's optional, normalized-require, disable and
force data, `x86Compute` returns IDENTICAL exactly when `diff` is empty and
SUPERSET otherwise, except that a non-empty `diff` for a GUEST cpu with STRICT
match yields INCOMPATIBLE reporting `diff`. -/
theorem x86Compute_result_classification :
    ∀ (map : X86Map) (host cpu : VirCPUDef) (wantGuest : Bool)
      (hm cf cr co cd cfb : X86Model) (req diff : CPUX86Data),
      archCheckFails cpu = false →
      vendorMismatch host cpu = false →
      x86ComputeModels map host cpu = some (hm, cf, cr, co, cd, cfb) →
      x86DataIsEmpty (x86DataIntersect cfb.data hm.data) = true →
      req = x86DataSubtract (x86DataSubtract
          (x86DataSubtract cr.data cf.data) co.data) cd.data →
      ¬(x86ModelCompare hm { cr with data := req } = .SUBSET ∨
        x86ModelCompare hm { cr with data := req } = .UNRELATED) →
      diff = x86DataSubtract (x86DataSubtract (x86DataSubtract
          (x86DataSubtract hm.data co.data) req) cd.data) cf.data →
      ((x86DataIsEmpty diff = true →
          (x86Compute map host cpu wantGuest).result = .IDENTICAL) ∧
       (x86DataIsEmpty diff = false →
          ((cpu.type = .GUEST ∧ cpu.matchMode = .STRICT →
             x86Compute map host cpu wantGuest =
               ⟨.INCOMPATIBLE, none, some (x86FeatureNames map diff)⟩) ∧
           (¬(cpu.type = .GUEST ∧ cpu.matchMode = .STRICT) →
             (x86Compute map host cpu wantGuest).result = .SUPERSET)))) := by
  intro map host cpu wantGuest hm cf cr co cd cfb req diff harch hven hmodels
    hforbid hreq hcmp hdiff
  subst hreq
  subst hdiff
  unfold x86Compute
  simp only [harch, hven, hmodels, Bool.false_eq_true, if_false]
  unfold x86ComputeInner
  rw [hforbid]
  simp only [Bool.true_eq_false, if_false]
  rw [if_neg hcmp]
  unfold x86ComputeClassify
  constructor
  · intro hempty
    rw [if_neg (by simp [hempty])]
    cases wantGuest <;> simp [hempty]
  · intro hne
    constructor
    · intro hts
      rw [if_pos ⟨hne, hts.1, hts.2⟩]
    · intro hnts
      rw [if_neg (fun hh => hnts ⟨hh.2.1, hh.2.2⟩)]
      cases wantGuest <;> simp [hne]

theorem x86Compute_result_classification_witness :
    x86Compute mapC hostX guestCstrict false =
      ⟨.INCOMPATIBLE, none, some ["lm"]⟩ := by
  have h := x86Compute_result_classification mapC hostX guestCstrict false
    _ _ _ _ _ _ _ _ (by decide) (by decide) rfl (by decide) rfl
    (by decide) rfl
  rw [(h.2 (by decide)).1 (by decide)]
  rfl

/-- C9: `x86Compute` performs its architecture and vendor screening before the
catalog is consulted or any model or feature name is resolved: whenever the
cpu requires a vendor the host does not declare, the result is INCOMPATIBLE
for every catalog whatsoever — in particular the names on the cpu need not
exist in the catalog and no unknown-model or unknown-feature error can be
raised. -/
theorem x86Compute_vendor_precheck :
    ∀ (map : X86Map) (host cpu : VirCPUDef) (wantGuest : Bool) (v : String),
      cpu.vendor = some v →
      (host.vendor = none ∨ ∀ w, host.vendor = some w → w ≠ v) →
      (x86Compute map host cpu wantGuest).result = .INCOMPATIBLE ∧
      (x86Compute map host cpu wantGuest).guestData = none := by
  intro map host cpu wantGuest v hv hh
  have hmm : vendorMismatch host cpu = true := by
    unfold vendorMismatch
    rw [hv]
    cases hw : host.vendor with
    | none => rfl
    | some w =>
      cases hh with
      | inl h => rw [h] at hw; cases hw
      | inr h =>
        have hvw : v ≠ w := fun he => h w hw he.symm
        simp [hvw]
  cases harch : archCheckFails cpu with
  | true => constructor <;> simp [x86Compute, harch]
  | false => constructor <;> simp [x86Compute, harch, hmm]

theorem x86Compute_vendor_precheck_witness :
    (x86Compute ⟨[], [], []⟩ hostX
      ⟨.NONE, .GUEST, .CUSTOM, .EXACT, .ALLOW, "no-such-model", some "AMD",
       [⟨"no-such-feature", .REQUIRE⟩]⟩ true).result = .INCOMPATIBLE := by
  exact (x86Compute_vendor_precheck ⟨[], [], []⟩ hostX
    ⟨.NONE, .GUEST, .CUSTOM, .EXACT, .ALLOW, "no-such-model", some "AMD",
     [⟨"no-such-feature", .REQUIRE⟩]⟩ true "AMD" rfl
    (Or.inr (fun w hw => by injection hw with hw; rw [← hw]; decide))).1

theorem x86DataToCPUFeatures_model :
    ∀ (fl : List X86Feature) (cpu : VirCPUDef) (policy : VirCPUFeaturePolicy)
      (data : CPUX86Data),
      (x86DataToCPUFeatures cpu policy data fl).1.model = cpu.model := by
  intro fl
  induction fl with
  | nil => intro cpu policy data; rfl
  | cons f rest ih =>
    intro cpu policy data
    unfold x86DataToCPUFeatures
    by_cases hs : x86DataIsSubset data f.data = true
    · rw [if_pos hs, ih]
      rfl
    · rw [if_neg hs, ih]

theorem x86DataToCPU_model (data : CPUX86Data) (model : X86Model) (map : X86Map) :
    (x86DataToCPU data model map).model = model.name := by
  unfold x86DataToCPU
  rw [x86DataToCPUFeatures_model, x86DataToCPUFeatures_model]

theorem x86DecodeCandidate_model {cpu : VirCPUDef} {data : CPUX86Data}
    {map : X86Map} {c : X86Model} {cand : VirCPUDef}
    (h : x86DecodeCandidate cpu data map c = some cand) : cand.model = c.name := by
  unfold x86DecodeCandidate at h
  by_cases hv : decodeVendorConflicts c (x86DataToCPU data c map) = true
  · rw [if_pos hv] at h; cases h
  · rw [if_neg hv] at h
    by_cases ht : cpu.type = .HOST
    · rw [if_pos ht] at h
      unfold decodeHostAdjust at h
      by_cases hd : (x86DataToCPU data c map).features.any
          (fun f => decide (f.policy = .DISABLE)) = true
      · rw [if_pos hd] at h; cases h
      · rw [if_neg hd] at h
        injection h with h
        rw [← h]
        exact x86DataToCPU_model data c map
    · rw [if_neg ht] at h
      injection h with h
      rw [← h]
      exact x86DataToCPU_model data c map

theorem x86DecodeLoop_preferred (cpu : VirCPUDef) (data : CPUX86Data)
    (map : X86Map) (models : Option (List String)) (c : X86Model)
    (cand : VirCPUDef)
    (hallow : cpuModelIsAllowed c.name models = true)
    (hcand : x86DecodeCandidate cpu data map c = some cand) :
    ∀ (pre : List X86Model) (post : List X86Model)
      (best : Option (VirCPUDef × CPUX86Data)),
      (∀ m ∈ pre, m.name ≠ c.name) →
      x86DecodeLoop cpu data map models (some c.name) (pre ++ c :: post) best =
        .ok (some (cand, c.data)) := by
  intro pre
  induction pre with
  | nil =>
    intro post best _
    show x86DecodeLoop cpu data map models (some c.name) (c :: post) best = _
    simp only [x86DecodeLoop, hallow, if_true, hcand]
    rw [if_pos (by rw [x86DecodeCandidate_model hcand])]
  | cons m pre ih =>
    intro post best hpre
    have hmne : m.name ≠ c.name := hpre m (by simp)
    have hprerest : ∀ m2 ∈ pre, m2.name ≠ c.name := fun m2 hm2 => hpre m2 (by simp [hm2])
    show x86DecodeLoop cpu data map models (some c.name) (m :: (pre ++ c :: post)) best = _
    simp only [x86DecodeLoop]
    cases hallowm : cpuModelIsAllowed m.name models with
    | false =>
      simp only [Bool.false_eq_true, if_false]
      rw [if_neg (fun hh => hmne (by injection hh.1 with hh2; exact hh2.symm))]
      exact ih post best hprerest
    | true =>
      simp only [if_true]
      cases hcandm : x86DecodeCandidate cpu data map m with
      | none =>
        simp only []
        exact ih post best hprerest
      | some candm =>
        simp only []
        rw [if_neg (fun hh => hmne (by
          injection hh with hh2
          rw [x86DecodeCandidate_model hcandm] at hh2
          exact hh2.symm))]
        split
        · exact ih post _ hprerest
        · exact ih post best hprerest

theorem foldl_filter_if {α β : Type} (p : α → Bool) (f : β → α → β) :
    ∀ (l : List α) (b : β),
      (l.filter p).foldl f b = l.foldl (fun x y => if p y then f x y else x) b := by
  intro l
  induction l with
  | nil => intro b; rfl
  | cons a l ih =>
    intro b
    by_cases hp : p a
    · simp [List.filter_cons, hp, ih]
    · simp [List.filter_cons, hp, ih]

theorem x86DecodeLoop_no_preferred (cpu : VirCPUDef) (data : CPUX86Data)
    (map : X86Map) (models : Option (List String)) (preferred : Option String) :
    ∀ (l : List X86Model) (best : Option (VirCPUDef × CPUX86Data)),
      (∀ m ∈ l, preferred ≠ some m.name) →
      x86DecodeLoop cpu data map models preferred l best =
        .ok (l.foldl (fun b c =>
          if decodeSpecSurvives cpu data map models c then decodeSpecFold cpu data map b c
          else b) best) := by
  intro l
  induction l with
  | nil => intro best _; rfl
  | cons c rest ih =>
    intro best hnp
    have hnpc : preferred ≠ some c.name := hnp c (by simp)
    have hnprest : ∀ m ∈ rest, preferred ≠ some m.name := fun m hm => hnp m (by simp [hm])
    rw [List.foldl_cons]
    show x86DecodeLoop cpu data map models preferred (c :: rest) best = _
    simp only [x86DecodeLoop]
    cases hallow : cpuModelIsAllowed c.name models with
    | false =>
      have hsurv : decodeSpecSurvives cpu data map models c = false := by
        unfold decodeSpecSurvives
        rw [hallow]
        rfl
      simp only [Bool.false_eq_true, if_false, hsurv]
      rw [if_neg (fun hh => hnpc hh.1)]
      exact ih best hnprest
    | true =>
      simp only [if_true]
      cases hcand : x86DecodeCandidate cpu data map c with
      | none =>
        have hsurv : decodeSpecSurvives cpu data map models c = false := by
          unfold decodeSpecSurvives
          rw [hallow, hcand]
          rfl
        simp only [hsurv, Bool.false_eq_true, if_false]
        exact ih best hnprest
      | some cand =>
        have hsurv : decodeSpecSurvives cpu data map models c = true := by
          unfold decodeSpecSurvives
          rw [hallow, hcand]
          rfl
        have hpm : ¬(preferred = some cand.model) := by
          rw [x86DecodeCandidate_model hcand]
          exact hnpc
        have hfold : decodeSpecFold cpu data map best c =
            (match best with
             | none => some (cand, c.data)
             | some b =>
               if b.1.features.length > cand.features.length then some (cand, c.data)
               else best) := by
          unfold decodeSpecFold
          rw [hcand]
        simp only [hsurv, if_true, hfold, hcand]
        rw [if_neg hpm]
        cases best with
        | none =>
          simp only []
          exact ih _ hnprest
        | some b =>
          simp only []
          by_cases hlt : b.1.features.length > cand.features.length
          · rw [if_pos hlt, if_pos (decide_eq_true hlt)]
            exact ih _ hnprest
          · rw [if_neg hlt, if_neg (fun hh => hlt (of_decide_eq_true hh))]
            exact ih _ hnprest

/-- C6: in `x86Decode`, a candidate surviving the allowlist and vendor (and
host) checks whose name equals the caller's preferred name is selected and the
iteration stops there — the result does not depend on any later candidate;
otherwise, among all surviving candidates, the one whose decoded definition
has the fewest features is selected, with ties resolved for the candidate met
earlier in catalog iteration order (`decodeSpecBest`). -/
theorem x86Decode_selection :
    ∀ (cpu : VirCPUDef) (data : CPUX86Data) (map : X86Map)
      (models : Option (List String)) (preferred : Option String),
      (∀ (pre post : List X86Model) (c : X86Model) (cand : VirCPUDef),
        map.models = pre ++ c :: post →
        preferred = some c.name →
        cpuModelIsAllowed c.name models = true →
        x86DecodeCandidate cpu data map c = some cand →
        (∀ m ∈ pre, m.name ≠ c.name) →
        x86Decode cpu data map models preferred false =
          .ok { cpu with
                model := cand.model, vendor := cand.vendor,
                features := cand.features }) ∧
      ((∀ m ∈ map.models, preferred ≠ some m.name) →
        x86Decode cpu data map models preferred false =
          match decodeSpecBest cpu data map models map.models with
          | some (cand, _) =>
            .ok { cpu with
                  model := cand.model, vendor := cand.vendor,
                  features := cand.features }
          | none => .error .nosuitable) := by
  intro cpu data map models preferred
  constructor
  · intro pre post c cand hmm hpref hallow hcand hpre
    subst hpref
    unfold x86Decode
    rw [hmm, x86DecodeLoop_preferred cpu data map models c cand hallow hcand pre post none hpre]
    rfl
  · intro hnp
    unfold x86Decode
    rw [x86DecodeLoop_no_preferred cpu data map models preferred map.models none hnp]
    unfold decodeSpecBest
    rw [foldl_filter_if]
    cases hres : map.models.foldl (fun b c =>
      if decodeSpecSurvives cpu data map models c then decodeSpecFold cpu data map b c
      else b) none with
    | none => rfl
    | some p => cases p; rfl

theorem x86Decode_selection_witness :
    x86Decode guestX x8664Data mapC none (some "core2") false =
      .ok { guestX with
            model := "core2", vendor := none,
            features := [⟨"lm", .REQUIRE⟩] } ∧
    x86Decode guestX x8664Data mapC none none false =
      .ok { guestX with model := "x86_64", vendor := none, features := [] } := by
  constructor
  · have h := (x86Decode_selection guestX x8664Data mapC none (some "core2")).1
      [⟨"x86_64", some intelVendor, x8664Data⟩] [⟨"base", none, fpuData⟩]
      ⟨"core2", some intelVendor, core2Data⟩ _ rfl rfl (by decide) rfl (by decide)
    rw [h]
    rfl
  · have h := (x86Decode_selection guestX x8664Data mapC none none).2
      (by intro m hm hh; cases hh)
    rw [h]
    rfl

/-- C7 counterexample: for a feature name absent from the catalog,
`x86HasFeature` reports -1, not 0 — the claim's "reported as not present
(result 0), not as an error" fails on the code (`ret` is initialized to -1 and
never overwritten when the lookup fails). -/
theorem x86HasFeature_unknown_counterexample :
    x86HasFeature ⟨[], [], []⟩ ⟨[], []⟩ "fpu" = -1 ∧ ((-1 : Int) ≠ 0) :=
  ⟨rfl, by decide⟩

/-- C7 amended: `x86HasFeature` returns 1 exactly when the named feature
exists in the catalog and the data mask-contains every non-null leaf of its
data, returns 0 exactly when the feature exists but is not contained, and
returns -1 (an error) exactly when the name is unknown to the catalog. -/
theorem x86HasFeature_characterization :
    ∀ (map : X86Map) (data : CPUX86Data) (name : String),
      ((x86HasFeature map data name = -1) ↔ x86FeatureFind map name = none) ∧
      ((x86HasFeature map data name = 1) ↔
        ∃ f, x86FeatureFind map name = some f ∧ x86DataIsSubset data f.data = true) ∧
      ((x86HasFeature map data name = 0) ↔
        ∃ f, x86FeatureFind map name = some f ∧ x86DataIsSubset data f.data = false) := by
  intro map data name
  cases hf : x86FeatureFind map name with
  | none =>
    refine ⟨?_, ?_, ?_⟩ <;> simp [x86HasFeature, hf]
  | some f =>
    cases hs : x86DataIsSubset data f.data with
    | true =>
      refine ⟨?_, ?_, ?_⟩ <;> simp [x86HasFeature, hf, hs]
    | false =>
      refine ⟨?_, ?_, ?_⟩ <;> simp [x86HasFeature, hf, hs]

/-- C8 counterexample: a vendor element with a missing name fails validation;
the partially built element is discarded and an error is reported, but the
load callback for the element returns 0 — success, not an error result — so
catalog loading continues (the validation failures all run through `goto
ignore`, which leaves `ret` at its initial 0). -/
theorem x86VendorLoad_ret_counterexample :
    x86VendorLoad ⟨none, none⟩ mapC = ⟨0, true, mapC⟩ ∧
    ¬((x86VendorLoad ⟨none, none⟩ mapC).ret < 0) :=
  ⟨rfl, by decide⟩

/-- C8 amended: when loading one catalog element fails validation (missing
name, duplicate name, missing or malformed vendor string, malformed cpuid
record, unknown ancestor, unknown vendor, unknown feature), the element is
discarded and an error is reported through the error-reporting channel, but
the load callback returns 0 rather than an error result, and every vendor,
feature, and model loaded before it remains present and unchanged; a
successful element is prepended, also leaving all earlier entries unchanged. -/
theorem catalog_load_isolation :
    ∀ (map : X86Map) (s : Option (List Nat)) (n : String) (cx : List CpuidXML)
      (mx : ModelXML) (sb : List Nat) (an vn : String)
      (fs : List (Option String)),
      (x86VendorLoad ⟨none, s⟩ map = ⟨0, true, map⟩) ∧
      ((x86VendorFind map n).isSome = true →
        x86VendorLoad ⟨some n, s⟩ map = ⟨0, true, map⟩) ∧
      ((x86VendorFind map n).isSome = false →
        x86VendorLoad ⟨some n, none⟩ map = ⟨0, true, map⟩) ∧
      ((x86VendorFind map n).isSome = false → sb.length ≠ VENDOR_STRING_LENGTH →
        x86VendorLoad ⟨some n, some sb⟩ map = ⟨0, true, map⟩) ∧
      (x86FeatureLoad ⟨none, cx⟩ map = ⟨0, true, map⟩) ∧
      ((x86FeatureFind map n).isSome = true →
        x86FeatureLoad ⟨some n, cx⟩ map = ⟨0, true, map⟩) ∧
      ((x86FeatureFind map n).isSome = false →
        x86FeatureLoadCpuids cx ⟨[], []⟩ = none →
        x86FeatureLoad ⟨some n, cx⟩ map = ⟨0, true, map⟩) ∧
      (x86ModelLoad ⟨none, mx.ancestor, mx.vendor, mx.features⟩ map = ⟨0, true, map⟩) ∧
      (x86ModelLoad ⟨some n, some none, mx.vendor, mx.features⟩ map = ⟨0, true, map⟩) ∧
      (x86ModelFind map an = none →
        x86ModelLoad ⟨some n, some (some an), mx.vendor, mx.features⟩ map = ⟨0, true, map⟩) ∧
      (x86VendorFind map vn = none →
        x86ModelLoad ⟨some n, none, some (some vn), fs⟩ map = ⟨0, true, map⟩) ∧
      (x86ModelLoadFeatures map fs ⟨[], []⟩ = none →
        x86ModelLoad ⟨some n, none, none, fs⟩ map = ⟨0, true, map⟩) ∧
      ((x86VendorFind map n).isSome = false → sb.length = VENDOR_STRING_LENGTH →
        (x86VendorLoad ⟨some n, some sb⟩ map).ret = 0 ∧
        (x86VendorLoad ⟨some n, some sb⟩ map).map.vendors =
          ⟨n, ⟨0, 0, virReadBufInt32LE sb 0, virReadBufInt32LE sb 8,
               virReadBufInt32LE sb 4⟩⟩ :: map.vendors ∧
        (x86VendorLoad ⟨some n, some sb⟩ map).map.features = map.features ∧
        (x86VendorLoad ⟨some n, some sb⟩ map).map.models = map.models) := by
  intro map s n cx mx sb an vn fs
  refine ⟨rfl, ?_, ?_, ?_, rfl, ?_, ?_, rfl, ?_, ?_, ?_, ?_, ?_⟩
  · intro h
    simp [x86VendorLoad, h]
  · intro h
    simp [x86VendorLoad, h]
  · intro h hlen
    simp [x86VendorLoad, h, hlen]
  · intro h
    simp [x86FeatureLoad, h]
  · intro h hcx
    simp [x86FeatureLoad, h, hcx]
  · simp [x86ModelLoad]
  · intro h
    simp [x86ModelLoad, h]
  · intro h
    simp [x86ModelLoad, h]
  · intro h
    simp [x86ModelLoad, h]
  · intro h hlen
    simp [x86VendorLoad, h, hlen]

theorem catalog_load_isolation_witness :
    x86VendorLoad ⟨some "Intel", none⟩ mapC = ⟨0, true, mapC⟩ := by
  exact (catalog_load_isolation mapC none "Intel" [] ⟨none, none, none, []⟩
    [] "a" "v" []).2.1 (by decide)

theorem rewriteOptional_fail (map : X86Map) (hostData : CPUX86Data) :
    ∀ (feats : List VirCPUFeature) (k : Nat) (fk : VirCPUFeature),
      feats.get? k = some fk →
      fk.policy = .OPTIONAL →
      x86FeatureFind map fk.name = none →
      (∀ j f2, j < k → feats.get? j = some f2 → f2.policy = .OPTIONAL →
        (x86FeatureFind map f2.name).isSome = true) →
      (rewriteOptional map hostData feats).1 = false ∧
      (rewriteOptional map hostData feats).2.length = feats.length ∧
      (∀ j, k ≤ j → (rewriteOptional map hostData feats).2.get? j = feats.get? j) ∧
      (∀ j f2, j < k → feats.get? j = some f2 →
        (f2.policy = .OPTIONAL →
          ∃ feat, x86FeatureFind map f2.name = some feat ∧
            (rewriteOptional map hostData feats).2.get? j =
              some ⟨f2.name,
                if x86DataIsSubset hostData feat.data then .REQUIRE else .DISABLE⟩) ∧
        (f2.policy ≠ .OPTIONAL →
          (rewriteOptional map hostData feats).2.get? j = some f2)) := by
  intro feats
  induction feats with
  | nil =>
    intro k fk hk
    cases hk
  | cons f rest ih =>
    intro k fk hk hopt hfind hbefore
    cases k with
    | zero =>
      rw [List.get?_cons_zero] at hk
      injection hk with hk
      subst hk
      have hrw : rewriteOptional map hostData (f :: rest) = (false, f :: rest) := by
        simp [rewriteOptional, hopt, hfind]
      rw [hrw]
      exact ⟨rfl, rfl, fun j hj => rfl, fun j f2 hj => absurd hj (by omega)⟩
    | succ k2 =>
      rw [List.get?_cons_succ] at hk
      have hbrest : ∀ j f2, j < k2 → rest.get? j = some f2 → f2.policy = .OPTIONAL →
          (x86FeatureFind map f2.name).isSome = true := by
        intro j f2 hj hg hp
        exact hbefore (j + 1) f2 (by omega) (by rw [List.get?_cons_succ]; exact hg) hp
      obtain ⟨ih1, ih2, ih3, ih4⟩ := ih k2 fk hk hopt hfind hbrest
      by_cases hfp : f.policy = .OPTIONAL
      · obtain ⟨feat, hfeat⟩ : ∃ feat, x86FeatureFind map f.name = some feat := by
          have hb0 := hbefore 0 f (by omega) List.get?_cons_zero hfp
          cases hff : x86FeatureFind map f.name with
          | none => rw [hff] at hb0; cases hb0
          | some feat => exact ⟨feat, rfl⟩
        have hrw : rewriteOptional map hostData (f :: rest) =
            ((rewriteOptional map hostData rest).1,
             (⟨f.name, if x86DataIsSubset hostData feat.data then .REQUIRE
               else .DISABLE⟩ : VirCPUFeature) ::
               (rewriteOptional map hostData rest).2) := by
          simp [rewriteOptional, hfp, hfeat]
        rw [hrw]
        refine ⟨ih1, by simp [ih2], ?_, ?_⟩
        · intro j hj
          cases j with
          | zero => omega
          | succ j2 =>
            rw [List.get?_cons_succ, List.get?_cons_succ]
            exact ih3 j2 (by omega)
        · intro j f2 hj hg
          cases j with
          | zero =>
            rw [List.get?_cons_zero] at hg
            injection hg with hg
            subst hg
            refine ⟨fun _ => ⟨feat, hfeat, by rw [List.get?_cons_zero]⟩,
              fun hne => absurd hfp hne⟩
          | succ j2 =>
            rw [List.get?_cons_succ] at hg
            have hj2 := ih4 j2 f2 (by omega) hg
            refine ⟨fun hp => ?_, fun hp => ?_⟩
            · obtain ⟨feat2, h1, h2⟩ := hj2.1 hp
              exact ⟨feat2, h1, by rw [List.get?_cons_succ]; exact h2⟩
            · rw [List.get?_cons_succ]
              exact hj2.2 hp
      · have hrw : rewriteOptional map hostData (f :: rest) =
            ((rewriteOptional map hostData rest).1,
             f :: (rewriteOptional map hostData rest).2) := by
          simp [rewriteOptional, hfp]
        rw [hrw]
        refine ⟨ih1, by simp [ih2], ?_, ?_⟩
        · intro j hj
          cases j with
          | zero => omega
          | succ j2 =>
            rw [List.get?_cons_succ, List.get?_cons_succ]
            exact ih3 j2 (by omega)
        · intro j f2 hj hg
          cases j with
          | zero =>
            rw [List.get?_cons_zero] at hg
            injection hg with hg
            subst hg
            refine ⟨fun hp => absurd hp hfp, fun _ => List.get?_cons_zero⟩
          | succ j2 =>
            rw [List.get?_cons_succ] at hg
            have hj2 := ih4 j2 f2 (by omega) hg
            refine ⟨fun hp => ?_, fun hp => ?_⟩
            · obtain ⟨feat2, h1, h2⟩ := hj2.1 hp
              exact ⟨feat2, h1, by rw [List.get?_cons_succ]; exact h2⟩
            · rw [List.get?_cons_succ]
              exact hj2.2 hp

/-- C10: `x86UpdateCustom` on a CUSTOM-mode guest is not atomic on error: when
the OPTIONAL feature at position `k` of the guest's feature list has a name
the catalog does not know (all earlier OPTIONAL names resolving), the call
returns -1 but every OPTIONAL feature before position `k` has already been
rewritten to REQUIRE (host model contains it) or DISABLE (it does not), while
positions from `k` on are untouched — the guest definition is left partially
updated, not restored. -/
theorem x86UpdateCustom_partial_update :
    ∀ (map : X86Map) (guest host : VirCPUDef) (hm : X86Model) (k : Nat)
      (fk : VirCPUFeature),
      x86ModelFromCPU host map .REQUIRE = some hm →
      guest.features.get? k = some fk →
      fk.policy = .OPTIONAL →
      x86FeatureFind map fk.name = none →
      (∀ j f2, j < k → guest.features.get? j = some f2 → f2.policy = .OPTIONAL →
        (x86FeatureFind map f2.name).isSome = true) →
      (x86UpdateCustom map guest host).1 = -1 ∧
      (x86UpdateCustom map guest host).2.features.length = guest.features.length ∧
      (∀ j, k ≤ j →
        (x86UpdateCustom map guest host).2.features.get? j = guest.features.get? j) ∧
      (∀ j f2, j < k → guest.features.get? j = some f2 → f2.policy = .OPTIONAL →
        ∃ feat, x86FeatureFind map f2.name = some feat ∧
          (x86UpdateCustom map guest host).2.features.get? j =
            some ⟨f2.name,
              if x86DataIsSubset hm.data feat.data then .REQUIRE else .DISABLE⟩) ∧
      (∀ j f2, j < k → guest.features.get? j = some f2 → f2.policy ≠ .OPTIONAL →
        (x86UpdateCustom map guest host).2.features.get? j = some f2) := by
  intro map guest host hm k fk hhm hk hopt hfind hbefore
  obtain ⟨r1, r2, r3, r4⟩ :=
    rewriteOptional_fail map hm.data guest.features k fk hk hopt hfind hbefore
  have hrw : x86UpdateCustom map guest host =
      (-1, { guest with features := (rewriteOptional map hm.data guest.features).2 }) := by
    unfold x86UpdateCustom
    rw [hhm]
    simp [r1]
  rw [hrw]
  exact ⟨rfl, r2, r3, fun j f2 hj hg hp => (r4 j f2 hj hg).1 hp,
    fun j f2 hj hg hp => (r4 j f2 hj hg).2 hp⟩

theorem x86UpdateCustom_partial_update_witness :
    (x86UpdateCustom mapC
      ⟨.NONE, .GUEST, .CUSTOM, .EXACT, .ALLOW, "core2", none,
       [⟨"sse2", .OPTIONAL⟩, ⟨"nope", .OPTIONAL⟩]⟩ hostX).1 = -1 ∧
    (x86UpdateCustom mapC
      ⟨.NONE, .GUEST, .CUSTOM, .EXACT, .ALLOW, "core2", none,
       [⟨"sse2", .OPTIONAL⟩, ⟨"nope", .OPTIONAL⟩]⟩ hostX).2.features =
      [⟨"sse2", .REQUIRE⟩, ⟨"nope", .OPTIONAL⟩] := by
  have h := x86UpdateCustom_partial_update mapC
    ⟨.NONE, .GUEST, .CUSTOM, .EXACT, .ALLOW, "core2", none,
     [⟨"sse2", .OPTIONAL⟩, ⟨"nope", .OPTIONAL⟩]⟩ hostX _ 1 ⟨"nope", .OPTIONAL⟩
    rfl rfl rfl rfl
    (by
      intro j f2 hj hg hp
      have hj0 : j = 0 := by omega
      subst hj0
      injection hg with hg2
      rw [← hg2]
      decide)
  refine ⟨h.1, ?_⟩
  obtain ⟨feat, hfeat, hget0⟩ := h.2.2.2.1 0 ⟨"sse2", .OPTIONAL⟩ (by omega) rfl rfl
  have hget1 := h.2.2.1 1 (by omega)
  have hlen := h.2.1
  rw [show x86FeatureFind mapC "sse2" = some ⟨"sse2", sse2Data⟩ from rfl] at hfeat
  injection hfeat with hfeat
  rw [← hfeat] at hget0
  have hget0' : (x86UpdateCustom mapC
      ⟨.NONE, .GUEST, .CUSTOM, .EXACT, .ALLOW, "core2", none,
       [⟨"sse2", .OPTIONAL⟩, ⟨"nope", .OPTIONAL⟩]⟩ hostX).2.features.get? 0 =
      some ⟨"sse2", .REQUIRE⟩ := by
    rw [hget0]
    rfl
  apply List.ext_get?
  intro i
  match i with
  | 0 => exact hget0'
  | 1 => exact hget1
  | (n + 2) =>
    rw [List.get?_eq_none.mpr (by rw [hlen]; simp), List.get?_eq_none.mpr (by simp)]
